import Mathlib

/-!
# Receipt points service: scorer and in-memory store

A shallow embedding of `internal/functions/functions.go`, `internal/storage/storage.go`,
`internal/models/models.go`, `internal/api/handlers.go` and the routing of `server/main.go`.

Conventions of the embedding:

* Go `int` is the 64-bit two's-complement integer; it is embedded as `Int`, and an addition
  that can leave the range is followed by `wrap64`.  Counters bounded by the length of a
  string or slice (always below `2^63` in Go) are left unwrapped.
* Go `float64` is embedded as `F64`, the IEEE-754 binary64 values, with round-to-nearest-even
  arithmetic.
* A Go `string` is embedded as a Lean `String`: the sequence of runes a `range` loop yields;
  `len` is the number of bytes of its UTF-8 encoding.
* `time.Time` is embedded as the civil fields of the parsed timestamp.
* The store's map is embedded as a function from identifiers to entries; the identifier
  drawn by `uuid.New()` is an explicit argument of the operations that save.  A second
  embedding keeps the map and the stored receipts as heap objects, for the claims about
  copies and aliases.
* Of a request the handlers read the method, the path, the Content-Type header and the
  body; of a response the model keeps the status first written and the values encoded to
  the body.  The calls of `encoding/json`, `time.Parse` and `strconv.ParseFloat` inside
  `UnmarshalJSON` are parameters (`Codec`).
-/

namespace Fetch

/-! ## Go `int` -/

/-- Reduce an integer to the range of a 64-bit two's-complement `int`. -/
def wrap64 (i : Int) : Int :=
  (i + 2 ^ 63) % 2 ^ 64 - 2 ^ 63

/-- Smallest value of a Go `int` on a 64-bit platform. -/
def minInt64 : Int := -(2 ^ 63)

/-- Largest value of a Go `int` on a 64-bit platform. -/
def maxInt64 : Int := 2 ^ 63 - 1

/-- Go `a + b` on `int`. -/
def addInt (a b : Int) : Int := wrap64 (a + b)

/-! ## Go `float64` -/

/-- IEEE-754 binary64 values.  `fin neg m e` is `(-1)^neg * m * 2^e`; the arithmetic below
only produces the canonical form: `m < 2^53`, `-1074 ≤ e ≤ 971`, and `e = -1074` whenever
`m < 2^52` (zero and subnormals). -/
inductive F64 where
  | nan : F64
  | inf (neg : Bool) : F64
  | fin (neg : Bool) (m : Nat) (e : Int) : F64
  deriving DecidableEq, Repr

/-- Number of binary digits of `n`, with an accumulator; `fuel` bounds the iterations. -/
def bitLenAux : Nat → Nat → Nat → Nat
  | 0, _, acc => acc
  | fuel + 1, n, acc => if n = 0 then acc else bitLenAux fuel (n / 2) (acc + 1)

/-- Number of binary digits of `n` (`0` for `0`). -/
def bitLen (n : Nat) : Nat := bitLenAux n n 0

/-- Value of `floor (log2 (n / d))` for positive `n`, `d`. -/
def floorLog2 (n d : Nat) : Int :=
  let k : Int := (bitLen n : Int) - (bitLen d : Int)
  if d * 2 ^ k.toNat ≤ n * 2 ^ (-k).toNat then k else k - 1

/-- Round the non-negative rational `n / d` (`d > 0`), with sign `neg`, to the nearest
binary64 value, ties to even; overflow gives an infinity. -/
def roundQ (neg : Bool) (n d : Nat) : F64 :=
  if n = 0 then F64.fin neg 0 (-1074)
  else
    let e : Int := max (floorLog2 n d - 52) (-1074)
    let num : Nat := n * 2 ^ (-e).toNat
    let den : Nat := d * 2 ^ e.toNat
    let q : Nat := num / den
    let r : Nat := num % den
    let q1 : Nat := if den < 2 * r ∨ (2 * r = den ∧ q % 2 = 1) then q + 1 else q
    let m : Nat := if q1 = 2 ^ 53 then 2 ^ 52 else q1
    let e1 : Int := if q1 = 2 ^ 53 then e + 1 else e
    if 971 < e1 then F64.inf neg else F64.fin neg m e1

/-- Round the value `(-1)^neg * m * 2^e`. -/
def roundDyadic (neg : Bool) (m : Nat) (e : Int) : F64 :=
  roundQ neg (m * 2 ^ e.toNat) (2 ^ (-e).toNat)

/-- The binary64 value nearest to the decimal `n / d`: what `strconv.ParseFloat` returns
for a decimal string, and the value of a Go floating-point constant. -/
def F64.ofDecimal (neg : Bool) (n d : Nat) : F64 := roundQ neg n d

/-- Go `float64(i)` for an `int`. -/
def F64.ofInt (i : Int) : F64 := roundQ (decide (i < 0)) i.natAbs 1

/-- A finite value as an integer multiple of `2^(-1074)`; `none` for NaN and infinities. -/
def F64.scaled : F64 → Option Int
  | .fin neg m e =>
      let v : Int := (m * 2 ^ (e + 1074).toNat : Nat)
      some (if neg then -v else v)
  | _ => none

/-- Floating-point negation. -/
def F64.neg : F64 → F64
  | .nan => .nan
  | .inf s => .inf (!s)
  | .fin s m e => .fin (!s) m e

/-- Go `x == y` on `float64`. -/
def F64.eq : F64 → F64 → Bool
  | .nan, _ => false
  | _, .nan => false
  | .inf s, .inf t => s == t
  | .inf _, .fin _ _ _ => false
  | .fin _ _ _, .inf _ => false
  | x@(.fin _ _ _), y@(.fin _ _ _) => x.scaled == y.scaled

/-- Go `x < y` on `float64`. -/
def F64.lt : F64 → F64 → Bool
  | .nan, _ => false
  | _, .nan => false
  | .inf s, .inf t => s && !t
  | .inf s, .fin _ _ _ => s
  | .fin _ _ _, .inf t => !t
  | x@(.fin _ _ _), y@(.fin _ _ _) =>
      match x.scaled, y.scaled with
      | some a, some b => decide (a < b)
      | _, _ => false

/-- Go `x <= y` on `float64`. -/
def F64.le (x y : F64) : Bool := x.lt y || x.eq y

/-- Go `x > y` on `float64`. -/
def F64.gt (x y : F64) : Bool := y.lt x

/-- Go `x + y` on `float64`. -/
def F64.add : F64 → F64 → F64
  | .nan, _ => .nan
  | _, .nan => .nan
  | .inf s, .inf t => if s = t then .inf s else .nan
  | .inf s, .fin _ _ _ => .inf s
  | .fin _ _ _, .inf t => .inf t
  | x@(.fin s _ _), y@(.fin t _ _) =>
      match x.scaled, y.scaled with
      | some a, some b =>
          let c : Int := a + b
          if c = 0 then F64.fin (s && t) 0 (-1074)
          else roundDyadic (decide (c < 0)) c.natAbs (-1074)
      | _, _ => .nan

/-- Go `x - y` on `float64`. -/
def F64.sub (x y : F64) : F64 := x.add y.neg

/-- Go `x * y` on `float64`. -/
def F64.mul : F64 → F64 → F64
  | .nan, _ => .nan
  | _, .nan => .nan
  | .inf s, .inf t => .inf (xor s t)
  | .inf s, .fin t m _ => if m = 0 then .nan else .inf (xor s t)
  | .fin s m _, .inf t => if m = 0 then .nan else .inf (xor s t)
  | .fin s m e, .fin t n f => roundDyadic (xor s t) (m * n) (e + f)

/-- Go `math.Ceil`. -/
def F64.ceil : F64 → F64
  | .nan => .nan
  | .inf s => .inf s
  | .fin s m e =>
      if 0 ≤ e then .fin s m e
      else
        let d : Nat := 2 ^ (-e).toNat
        let c : Nat := if s then m / d else (m + d - 1) / d
        roundQ s c 1

/-- Go `math.Mod(x, y)`: the remainder of `x / y` with the sign of `x`. -/
def F64.mod : F64 → F64 → F64
  | .nan, _ => .nan
  | _, .nan => .nan
  | .inf _, _ => .nan
  | .fin s m e, .inf _ => .fin s m e
  | .fin s m e, .fin _ n f =>
      if n = 0 then .nan
      else
        let a : Nat := m * 2 ^ (e + 1074).toNat
        let b : Nat := n * 2 ^ (f + 1074).toNat
        roundDyadic s (a % b) (-1074)

/-- Truncation toward zero of a finite value; `none` for NaN and infinities. -/
def F64.trunc : F64 → Option Int
  | .fin s m e =>
      let t : Nat := m * 2 ^ e.toNat / 2 ^ (-e).toNat
      some (if s then -(t : Int) else t)
  | _ => none

/-- The implementation-dependent part of Go's `float64` to `int` conversion: the result for
an operand that `int` cannot represent (NaN, an infinity, a value outside the range). -/
structure Platform where
  convInvalid : F64 → Int

/-- On amd64 the conversion instruction yields the "integer indefinite" value `-2^63`. -/
def amd64 : Platform where
  convInvalid := fun _ => minInt64

/-- On arm64 the conversion saturates, and NaN converts to `0`. -/
def arm64 : Platform where
  convInvalid := fun x =>
    match x with
    | .nan => 0
    | .inf s => if s then minInt64 else maxInt64
    | .fin s _ _ => if s then minInt64 else maxInt64

/-- Go `int(x)` for a `float64`. -/
def F64.toInt (P : Platform) (x : F64) : Int :=
  match x.trunc with
  | some t => if minInt64 ≤ t ∧ t ≤ maxInt64 then t else wrap64 (P.convInvalid x)
  | none => wrap64 (P.convInvalid x)

/-! ## Runes and strings (`unicode`, `strings`) -/

/-- The range tables of package `unicode` above Latin-1, as predicates on code points:
`letter` is category L, `number` is category N (Nd, Nl and No), `digit` is category Nd. -/
structure UnicodeTables where
  letter : Nat → Bool
  number : Nat → Bool
  digit : Nat → Bool

/-- Letters of the Latin-1 block: the entries of `unicode.properties` with a letter flag. -/
def latin1Letter (c : Nat) : Bool :=
  (0x41 ≤ c && c ≤ 0x5A) || (0x61 ≤ c && c ≤ 0x7A) || c == 0xAA || c == 0xB5 || c == 0xBA ||
  (0xC0 ≤ c && c ≤ 0xD6) || (0xD8 ≤ c && c ≤ 0xF6) || (0xF8 ≤ c && c ≤ 0xFF)

/-- Numbers of the Latin-1 block: the entries of `unicode.properties` with flag `pN`:
the decimal digits and the characters `²`, `³`, `¹`, `¼`, `½`, `¾`. -/
def latin1Number (c : Nat) : Bool :=
  (0x30 ≤ c && c ≤ 0x39) || c == 0xB2 || c == 0xB3 || c == 0xB9 ||
  c == 0xBC || c == 0xBD || c == 0xBE

/-- Go `unicode.IsLetter`. -/
def IsLetter (T : UnicodeTables) (r : Char) : Bool :=
  if r.toNat ≤ 0xFF then latin1Letter r.toNat else T.letter r.toNat

/-- Go `unicode.IsNumber`. -/
def IsNumber (T : UnicodeTables) (r : Char) : Bool :=
  if r.toNat ≤ 0xFF then latin1Number r.toNat else T.number r.toNat

/-- Go `unicode.IsDigit`. -/
def IsDigit (T : UnicodeTables) (r : Char) : Bool :=
  if r.toNat ≤ 0xFF then (0x30 ≤ r.toNat && r.toNat ≤ 0x39) else T.digit r.toNat

/-- Go `unicode.IsSpace`: the `White_Space` property. -/
def IsSpace (r : Char) : Bool :=
  let c := r.toNat
  (0x09 ≤ c && c ≤ 0x0D) || c == 0x20 || c == 0x85 || c == 0xA0 || c == 0x1680 ||
  (0x2000 ≤ c && c ≤ 0x200A) || c == 0x2028 || c == 0x2029 || c == 0x202F ||
  c == 0x205F || c == 0x3000

/-- Go `strings.TrimSpace`, on the runes of the string. -/
def TrimSpace (s : String) : String :=
  String.mk ((s.toList.dropWhile IsSpace).reverse.dropWhile IsSpace).reverse

/-- Number of bytes of the UTF-8 encoding of a rune. -/
def runeLen (r : Char) : Nat :=
  if r.toNat < 0x80 then 1 else if r.toNat < 0x800 then 2 else if r.toNat < 0x10000 then 3 else 4

/-- Go `len(s)` for a string: its length in bytes. -/
def len (s : String) : Nat := (s.toList.map runeLen).sum

/-! ## `time.Time` -/

/-- A parsed timestamp, by its civil fields (`time.Parse` without a zone keeps them as
written). -/
structure Time where
  year : Nat
  month : Nat
  day : Nat
  hour : Nat
  minute : Nat
  second : Nat
  deriving DecidableEq, Repr

/-- Go `t.Day()`. -/
def Time.Day (t : Time) : Int := t.day

/-- Go `t.Hour()`. -/
def Time.Hour (t : Time) : Int := t.hour

/-! ## `internal/models` -/

/-- A single item on a receipt. -/
structure Item where
  ShortDescription : String
  Price : String
  ParsedPrice : F64
  deriving DecidableEq, Repr

/-- A complete shopping receipt. -/
structure Receipt where
  Retailer : String
  PurchaseDate : String
  PurchaseTime : String
  Items : List Item
  Total : String
  ParsedDate : Time
  ParsedTotal : F64
  deriving DecidableEq, Repr

/-- A processed receipt with its calculated points. -/
structure StoredReceipt where
  Receipt : Receipt
  Points : Int
  deriving DecidableEq, Repr

/-! ## `internal/functions` -/

/-- Points for round dollar amounts. -/
def roundDollarPoints : Int := 50

/-- Points for multiples of 0.25. -/
def multipleOf25Points : Int := 25

/-- Points for odd-numbered days. -/
def oddDayPoints : Int := 6

/-- Points for purchases between 2:00 PM and 4:00 PM. -/
def between2And4PMPoints : Int := 10

/-- Count of the runes of the retailer name that `unicode.IsLetter` or `unicode.IsNumber`
accepts: the `range` loop with `points++` (the count is at most the length of the string,
so it cannot leave the range of `int`). -/
def calculateRetailerNamePoints (T : UnicodeTables) (retailer : String) : Int :=
  retailer.toList.foldl
    (fun points char => if IsLetter T char || IsNumber T char then points + 1 else points) 0

/-- Points for round dollar amounts and multiples of 0.25. -/
def calculateTotalPoints (P : Platform) (total : F64) : Int :=
  let points : Int := 0
  let points :=
    if total.eq (F64.ofInt (total.toInt P)) then addInt points roundDollarPoints else points
  let points :=
    if ((total.mul (F64.ofInt 100)).mod (F64.ofInt 25)).eq (F64.ofInt 0) then
      addInt points multipleOf25Points
    else points
  points

/-- The value `int(math.Ceil(item.ParsedPrice * 0.2))` added for a qualifying item. -/
def priceBonus (P : Platform) (item : Item) : Int :=
  ((item.ParsedPrice.mul (F64.ofDecimal false 2 10)).ceil).toInt P

/-- One iteration of the loop of `calculateItemPoints`. -/
def itemStep (P : Platform) (points : Int) (item : Item) : Int :=
  let trimmed := TrimSpace item.ShortDescription
  if len trimmed % 3 = 0 then addInt points (priceBonus P item) else points

/-- Points based on item count and description length.  The pair bonus cannot leave the
range of `int` (a slice of items has far fewer than `2^61` elements); each `+=` of the loop
can, and wraps. -/
def calculateItemPoints (P : Platform) (items : List Item) : Int :=
  let points : Int := 0
  let points := points + ((items.length / 2 : Nat) : Int) * 5
  items.foldl (itemStep P) points

/-- Points for odd-numbered days. -/
def calculateDatePoints (date : Time) : Int :=
  if date.Day % 2 = 1 then oddDayPoints else 0

/-- Points for purchases between 2:00 PM and 4:00 PM. -/
def calculateTimePoints (date : Time) : Int :=
  let hour := date.Hour
  if hour ≥ 14 ∧ hour < 16 then between2And4PMPoints else 0

/-- Points for a receipt based on retailer name, total amount, items, date and time. -/
def CalculatePoints (P : Platform) (T : UnicodeTables) (receipt : Receipt) : Int :=
  let points : Int := 0
  let points := addInt points (calculateRetailerNamePoints T receipt.Retailer)
  let points := addInt points (calculateTotalPoints P receipt.ParsedTotal)
  let points := addInt points (calculateItemPoints P receipt.Items)
  let points := addInt points (calculateDatePoints receipt.ParsedDate)
  let points := addInt points (calculateTimePoints receipt.ParsedDate)
  points

/-! ## `internal/api`: receipt validation -/

/-- The errors `validateReceipt` returns (the Go code builds them with `fmt.Errorf`; item
numbers are 1-based). -/
inductive ValidationError where
  | retailerRequired : ValidationError
  | itemRequired : ValidationError
  | descriptionRequired (item : Nat) : ValidationError
  | invalidPrice (item : Nat) : ValidationError
  | totalMismatch (total sum : F64) : ValidationError
  deriving DecidableEq, Repr

/-- The loop of `validateReceipt` over the items, from index `i` with running `sum`: the
first error met, or the sum of the prices. -/
def validateItems : List Item → Nat → F64 → Except ValidationError F64
  | [], _, sum => .ok sum
  | item :: rest, i, sum =>
      if TrimSpace item.ShortDescription = "" then .error (.descriptionRequired (i + 1))
      else if item.ParsedPrice.le (F64.ofInt 0) then .error (.invalidPrice (i + 1))
      else validateItems rest (i + 1) (sum.add item.ParsedPrice)

/-- Basic validation of a receipt; `none` is Go's `nil` error. -/
def validateReceipt (receipt : Receipt) : Option ValidationError :=
  if TrimSpace receipt.Retailer = "" then some .retailerRequired
  else if receipt.Items.length = 0 then some .itemRequired
  else
    match validateItems receipt.Items 0 (F64.ofInt 0) with
    | .error e => some e
    | .ok sum =>
        let diff := receipt.ParsedTotal.sub sum
        if diff.lt (F64.ofDecimal true 1 100) || diff.gt (F64.ofDecimal false 1 100) then
          some (.totalMismatch receipt.ParsedTotal sum)
        else none

/-! ## `internal/storage` -/

/-- The store: its map from identifier to stored receipt.  The calculator it holds has no
state; its two parameters are passed to the operations that score a receipt. -/
structure Store where
  receipts : String → Option StoredReceipt

/-- A new store, with an empty map. -/
def NewStore : Store where
  receipts := fun _ => none

/-- The error of `GetReceipt` for an unknown identifier. -/
def errReceiptNotFound : String := "receipt not found"

/-- Store a receipt under the identifier `id` drawn by `uuid.New()`; returns the identifier
and the store after the call. -/
def Store.SaveReceipt (s : Store) (receipt : Receipt) (points : Int) (id : String) :
    String × Store :=
  (id, { receipts := fun k =>
          if k = id then some { Receipt := receipt, Points := points } else s.receipts k })

/-- Calculate the points of a receipt and store it; returns `(id, points)` and the store
after the call. -/
def Store.CalculateAndSaveReceipt (P : Platform) (T : UnicodeTables) (s : Store)
    (receipt : Receipt) (id : String) : (String × Int) × Store :=
  let points := CalculatePoints P T receipt
  let r := s.SaveReceipt receipt points id
  ((r.1, points), r.2)

/-- Retrieve a receipt by identifier; returns Go's pair `(receipt, err)` and the store
after the call. -/
def Store.GetReceipt (s : Store) (id : String) :
    (Option StoredReceipt × Option String) × Store :=
  match s.receipts id with
  | some receipt => ((some receipt, none), s)
  | none => ((none, some errReceiptNotFound), s)

/-- All stored receipts, copied into a new map; returns it and the store after the call. -/
def Store.GetAllReceipts (s : Store) : (String → Option StoredReceipt) × Store :=
  (fun id => s.receipts id, s)

/-! ## `strings` helpers of the handlers -/

/-- Go `strings.HasPrefix`. -/
def HasPrefix (s p : String) : Bool := p.toList.isPrefixOf s.toList

/-- Go `strings.HasSuffix`. -/
def HasSuffix (s p : String) : Bool := p.toList.isSuffixOf s.toList

/-- Go `strings.TrimPrefix`: `s` without the leading `p`, or `s` itself. -/
def TrimPrefix (s p : String) : String :=
  if HasPrefix s p then String.mk (s.toList.drop p.toList.length) else s

/-- Go `strings.TrimSuffix`: `s` without the trailing `p`, or `s` itself. -/
def TrimSuffix (s p : String) : String :=
  if HasSuffix s p then String.mk (s.toList.take (s.toList.length - p.toList.length)) else s

/-- Go `strings.Contains`: `sub` occurs somewhere in `s`. -/
def Contains (s sub : String) : Bool :=
  s.toList.tails.any (fun t => sub.toList.isPrefixOf t)

/-! ## `internal/models`: decoding a receipt -/

/-- The library calls of `Receipt.UnmarshalJSON`: `json.Unmarshal` into the alias type (the
raw string fields; the parsed fields are tagged `json:"-"` and stay zero), `time.Parse`
with the layout "2006-01-02T15:04:05", and `strconv.ParseFloat(s, 64)`.  `none` is an
error. -/
structure Codec where
  jsonUnmarshal : String → Option Receipt
  timeParse : String → Option Time
  parseFloat : String → Option F64

/-- The errors of `Receipt.UnmarshalJSON`. -/
inductive DecodeError where
  | json : DecodeError
  | dateTime : DecodeError
  | total : DecodeError
  | price (item : Nat) : DecodeError
  deriving DecidableEq, Repr

/-- The loop of `UnmarshalJSON` that parses the price of every item, from index `i`. -/
def parsePrices (C : Codec) : List Item → Nat → Except DecodeError (List Item)
  | [], _ => .ok []
  | item :: rest, i =>
      match C.parseFloat item.Price with
      | none => .error (.price (i + 1))
      | some price =>
          match parsePrices C rest (i + 1) with
          | .error e => .error e
          | .ok items => .ok ({ item with ParsedPrice := price } :: items)

/-- Parse the receipt's date, time and monetary values. -/
def UnmarshalJSON (C : Codec) (data : String) : Except DecodeError Receipt :=
  match C.jsonUnmarshal data with
  | none => .error .json
  | some temp =>
      let dateStr := temp.PurchaseDate ++ "T" ++ temp.PurchaseTime ++ ":00"
      match C.timeParse dateStr with
      | none => .error .dateTime
      | some parsedDate =>
          match C.parseFloat temp.Total with
          | none => .error .total
          | some total =>
              match parsePrices C temp.Items 0 with
              | .error e => .error e
              | .ok items =>
                  .ok { temp with Items := items, ParsedDate := parsedDate, ParsedTotal := total }

/-! ## `internal/api`: the handlers -/

/-- What a handler reads of an `http.Request`. -/
structure Request where
  Method : String
  Path : String
  ContentType : String
  Body : String
  deriving DecidableEq, Repr

/-- The values the handlers encode to the response body. -/
inductive ResponseBody where
  | error (message : String) : ResponseBody
  | created (id : String) (points : Int) : ResponseBody
  | invalidReceipt (err : ValidationError) : ResponseBody
  | points (points : Int) : ResponseBody
  | text (message : String) : ResponseBody
  deriving DecidableEq, Repr

/-- An `http.ResponseWriter`: the status of the first `WriteHeader` (later calls are
ignored), the Content-Type header at that moment, and the values written to the body.
`writeOK` tells whether writes to the connection succeed. -/
structure ResponseWriter where
  writeOK : Bool
  header : Option String
  status : Option Nat
  contentType : Option String
  body : List ResponseBody
  deriving DecidableEq, Repr

/-- A response writer on which nothing has been written. -/
def newResponseWriter (writeOK : Bool) : ResponseWriter :=
  { writeOK := writeOK, header := none, status := none, contentType := none, body := [] }

/-- Go `w.Header().Set("Content-Type", v)`. -/
def ResponseWriter.SetContentType (w : ResponseWriter) (v : String) : ResponseWriter :=
  { w with header := some v }

/-- Go `w.WriteHeader(status)`. -/
def ResponseWriter.WriteHeader (w : ResponseWriter) (status : Nat) : ResponseWriter :=
  match w.status with
  | some _ => w
  | none => { w with status := some status, contentType := w.header }

/-- Go `json.NewEncoder(w).Encode(v)`: the writer after the call and whether an error is
returned. -/
def ResponseWriter.Encode (w : ResponseWriter) (v : ResponseBody) : ResponseWriter × Bool :=
  if w.writeOK then ({ (w.WriteHeader 200) with body := w.body ++ [v] }, false) else (w, true)

/-- Send a JSON error body with the given status code. -/
def sendError (w : ResponseWriter) (body : ResponseBody) (status : Nat) : ResponseWriter :=
  let w := w.SetContentType "application/json"
  let w := w.WriteHeader status
  (w.Encode body).1

/-- Send a JSON error response with the given status code. -/
def sendErrorResponse (w : ResponseWriter) (message : String) (status : Nat) : ResponseWriter :=
  sendError w (.error message) status

/-- Handler of `POST /receipts/process`; `id` is the identifier `uuid.New()` yields if the
receipt is saved.  Returns the response writer and the store after the call. -/
def ProcessReceipt (C : Codec) (P : Platform) (T : UnicodeTables) (s : Store)
    (w : ResponseWriter) (r : Request) (id : String) : ResponseWriter × Store :=
  if r.Method ≠ "POST" then (sendErrorResponse w "Method not allowed" 405, s)
  else
    let contentType := r.ContentType
    if !Contains contentType "application/json" then
      (sendErrorResponse w "Content-Type must be application/json" 415, s)
    else
      match UnmarshalJSON C r.Body with
      | .error _ => (sendErrorResponse w "Invalid JSON format" 400, s)
      | .ok receipt =>
          match validateReceipt receipt with
          | some err => (sendError w (.invalidReceipt err) 400, s)
          | none =>
              let saved := s.CalculateAndSaveReceipt P T receipt id
              let w := w.SetContentType "application/json"
              let w := w.WriteHeader 201
              let e := w.Encode (.created saved.1.1 saved.1.2)
              if e.2 then (sendErrorResponse e.1 "Error generating response" 500, saved.2)
              else (e.1, saved.2)

/-- Handler of `GET /receipts/{id}/points`.  Returns the response writer and the store
after the call. -/
def GetPoints (s : Store) (w : ResponseWriter) (r : Request) : ResponseWriter × Store :=
  if r.Method ≠ "GET" then (sendErrorResponse w "Method not allowed" 405, s)
  else
    let path := TrimPrefix r.Path "/receipts/"
    let id := TrimSuffix path "/points"
    if id = "" ∨ id = path then (sendErrorResponse w "Invalid receipt ID format" 400, s)
    else
      let got := s.GetReceipt id
      match got.1 with
      | (_, some _) => (sendErrorResponse w "Receipt not found" 404, got.2)
      | (none, none) => (w, got.2)
      | (some receipt, none) =>
          let w := w.SetContentType "application/json"
          let w := w.WriteHeader 200
          let e := w.Encode (.points receipt.Points)
          if e.2 then (sendErrorResponse e.1 "Error generating response" 500, got.2)
          else (e.1, got.2)

/-- The handler `main` registers for the pattern "/receipts/". -/
def receiptsHandler (C : Codec) (P : Platform) (T : UnicodeTables) (s : Store)
    (w : ResponseWriter) (r : Request) (id : String) : ResponseWriter × Store :=
  let path := r.Path
  if path = "/receipts/process" then ProcessReceipt C P T s w r id
  else if HasSuffix path "/points" then GetPoints s w r
  else
    let w := w.SetContentType "text/plain; charset=utf-8"
    let w := w.WriteHeader 404
    ((w.Encode (.text "Not found")).1, s)

/-! ## The store on the heap

The operations of `internal/storage` once more, with the map of the store and the stored
receipts as heap objects, to tell a copy of the map from an alias of it. -/

/-- A Go map object of type `map[string]*models.StoredReceipt`: the pointer (an address, a
natural number) held under each key. -/
abbrev MapObject := String → Option Nat

/-- The heap: the map objects, the `StoredReceipt` objects, and the first address that
has not been allocated. -/
structure Heap where
  maps : Nat → Option MapObject
  records : Nat → Option StoredReceipt
  next : Nat

/-- The `Store` struct: its field `receipts` refers to a map object. -/
structure StoreRef where
  receipts : Nat
  deriving DecidableEq, Repr

/-- Go `make(map[string]*models.StoredReceipt)`: a new, empty map object. -/
def Heap.makeMap (h : Heap) : Nat × Heap :=
  (h.next, { h with maps := fun a => if a = h.next then some (fun _ => none) else h.maps a,
                    next := h.next + 1 })

/-- Go `&models.StoredReceipt{...}`: a new object holding `v`. -/
def Heap.newRecord (h : Heap) (v : StoredReceipt) : Nat × Heap :=
  (h.next, { h with records := fun a => if a = h.next then some v else h.records a,
                    next := h.next + 1 })

/-- Go `m[k] = p` on the map object at `m`; a nil map is left alone. -/
def Heap.mapAssign (h : Heap) (m : Nat) (k : String) (p : Nat) : Heap :=
  match h.maps m with
  | none => h
  | some obj =>
      { h with maps := fun a =>
          if a = m then some (fun key => if key = k then some p else obj key) else h.maps a }

/-- Go `delete(m, k)` on the map object at `m`. -/
def Heap.mapDelete (h : Heap) (m : Nat) (k : String) : Heap :=
  match h.maps m with
  | none => h
  | some obj =>
      { h with maps := fun a =>
          if a = m then some (fun key => if key = k then none else obj key) else h.maps a }

/-- Go `m[k]` on the map object at `m`: the pointer under `k`, if any. -/
def Heap.mapLookup (h : Heap) (m : Nat) (k : String) : Option Nat :=
  match h.maps m with
  | none => none
  | some obj => obj k

/-- `NewStore` on the heap. -/
def Heap.NewStore (h : Heap) : StoreRef × Heap :=
  let r := h.makeMap
  ({ receipts := r.1 }, r.2)

/-- `SaveReceipt` on the heap: a new `StoredReceipt` object, assigned under `id`. -/
def Heap.SaveReceipt (h : Heap) (s : StoreRef) (receipt : Receipt) (points : Int)
    (id : String) : String × Heap :=
  let r := h.newRecord { Receipt := receipt, Points := points }
  (id, r.2.mapAssign s.receipts id r.1)

/-- `GetReceipt` on the heap: the pointer stored under `id`, or the error. -/
def Heap.GetReceipt (h : Heap) (s : StoreRef) (id : String) :
    (Option Nat × Option String) × Heap :=
  match h.mapLookup s.receipts id with
  | some receipt => ((some receipt, none), h)
  | none => ((none, some errReceiptNotFound), h)

/-- `GetAllReceipts` on the heap: a new map object that receives every entry of the
store's map; returns its address. -/
def Heap.GetAllReceipts (h : Heap) (s : StoreRef) : Nat × Heap :=
  let r := h.makeMap
  match h.maps s.receipts with
  | none => r
  | some obj =>
      (r.1, { r.2 with maps := fun a => if a = r.1 then some (fun key => obj key) else r.2.maps a })

/-- What a holder of the pointer `p` reads: the stored receipt it points to. -/
def Heap.deref (h : Heap) (p : Option Nat) : Option StoredReceipt :=
  match p with
  | none => none
  | some a => h.records a

/-- The contents of the map object at `m`: for each key, the stored receipt its pointer
leads to. -/
def Heap.contents (h : Heap) (m : Nat) : String → Option StoredReceipt :=
  fun k => h.deref (h.mapLookup m k)

/-- The store is allocated on a well-formed heap: its map object exists below the
allocation frontier, no object exists at or above the frontier, and no map entry points at
or above it. -/
def Heap.Allocated (h : Heap) (s : StoreRef) : Prop :=
  s.receipts < h.next ∧ (h.maps s.receipts).isSome = true ∧
  (∀ a, h.next ≤ a → h.maps a = none ∧ h.records a = none) ∧
  (∀ m obj k p, h.maps m = some obj → obj k = some p → p < h.next)

/-- The empty heap. -/
def emptyHeap : Heap where
  maps := fun _ => none
  records := fun _ => none
  next := 0

/-! ## Specification-side definitions -/

/-- Count of the runes of `s` that are a letter or a decimal digit (`unicode.IsDigit`), as
the specification words the retailer rule. -/
def letterOrDigitCount (T : UnicodeTables) (s : String) : Int :=
  ((s.toList.filter (fun c => IsLetter T c || IsDigit T c)).length : Int)

/-- Count of the runes of `s` that are a letter or a number (`unicode.IsNumber`). -/
def letterOrNumberCount (T : UnicodeTables) (s : String) : Int :=
  ((s.toList.filter (fun c => IsLetter T c || IsNumber T c)).length : Int)

/-- An item earns the description bonus: its trimmed description length is a multiple of 3. -/
def earnsDescriptionBonus (item : Item) : Bool :=
  len (TrimSpace item.ShortDescription) % 3 == 0

/-- The item rule as the specification words it: 5 for every complete pair of items, plus
the sum over the items that earn the description bonus of their rounded-up fifth of the
price, as an unbounded integer. -/
def itemPointsFormula (P : Platform) (items : List Item) : Int :=
  5 * ((items.length / 2 : Nat) : Int) + ((items.filter earnsDescriptionBonus).map (priceBonus P)).sum

/-- A value of Go's `int`. -/
def inInt64 (i : Int) : Prop := minInt64 ≤ i ∧ i ≤ maxInt64

/-- Minutes since midnight of a timestamp. -/
def Time.minuteOfDay (t : Time) : Nat := t.hour * 60 + t.minute

/-- An identifier is a key of the store's map. -/
def Store.hasKey (s : Store) (id : String) : Prop := (s.receipts id).isSome = true

/-- The sum of the item prices as `validateReceipt` accumulates it. -/
def sumPrices (items : List Item) : F64 :=
  items.foldl (fun sum item => sum.add item.ParsedPrice) (F64.ofInt 0)

/-- The declared total differs from the sum by at most 0.01 in either direction. -/
def withinTolerance (total sum : F64) : Prop :=
  (F64.ofDecimal true 1 100).le (total.sub sum) = true ∧
  (total.sub sum).le (F64.ofDecimal false 1 100) = true

/-- The conditions the specification puts on an accepted receipt: a retailer that is not
empty after trimming, at least one item, every description not empty after trimming, every
price greater than zero, and a total within 0.01 of the sum of the prices. -/
def receiptAcceptable (r : Receipt) : Prop :=
  TrimSpace r.Retailer ≠ "" ∧ r.Items ≠ [] ∧
  (∀ item ∈ r.Items, TrimSpace item.ShortDescription ≠ "" ∧
    (F64.ofInt 0).lt item.ParsedPrice = true) ∧
  withinTolerance r.ParsedTotal (sumPrices r.Items)

/-- The five contributions of `CalculatePoints`, added as unbounded integers. -/
def contributionsSum (P : Platform) (T : UnicodeTables) (r : Receipt) : Int :=
  calculateRetailerNamePoints T r.Retailer + calculateTotalPoints P r.ParsedTotal +
  calculateItemPoints P r.Items + calculateDatePoints r.ParsedDate +
  calculateTimePoints r.ParsedDate

/-! ## Sample receipts -/

/-- The end-to-end example of the specification: retailer "Target", 2022-01-01 13:01, one
item ("Mountain Dew 12PK", 6.49), total 6.49. -/
def targetReceipt : Receipt where
  Retailer := "Target"
  PurchaseDate := "2022-01-01"
  PurchaseTime := "13:01"
  Items := [⟨"Mountain Dew 12PK", "6.49", F64.ofDecimal false 649 100⟩]
  Total := "6.49"
  ParsedDate := ⟨2022, 1, 1, 13, 1, 0⟩
  ParsedTotal := F64.ofDecimal false 649 100

/-- A receipt with two items of price 4e19 each and total 8e19, as `UnmarshalJSON` decodes
it from the strings "40000000000000000000" and "80000000000000000000". -/
def hugePriceReceipt : Receipt where
  Retailer := "A"
  PurchaseDate := "2022-01-01"
  PurchaseTime := "13:01"
  Items := [⟨"abc", "40000000000000000000", F64.ofDecimal false 40000000000000000000 1⟩,
            ⟨"abc", "40000000000000000000", F64.ofDecimal false 40000000000000000000 1⟩]
  Total := "80000000000000000000"
  ParsedDate := ⟨2022, 1, 1, 13, 1, 0⟩
  ParsedTotal := F64.ofDecimal false 80000000000000000000 1

/-- A receipt whose only item has the price string "NaN", which `strconv.ParseFloat`
accepts and parses to NaN. -/
def nanPriceReceipt : Receipt where
  Retailer := "A"
  PurchaseDate := "2022-01-01"
  PurchaseTime := "13:01"
  Items := [⟨"abc", "NaN", F64.nan⟩]
  Total := "1.00"
  ParsedDate := ⟨2022, 1, 1, 13, 1, 0⟩
  ParsedTotal := F64.ofDecimal false 100 100

/-- A receipt whose total string is "NaN". -/
def nanTotalReceipt : Receipt where
  Retailer := "A"
  PurchaseDate := "2022-01-01"
  PurchaseTime := "13:01"
  Items := [⟨"abc", "1.00", F64.ofDecimal false 100 100⟩]
  Total := "NaN"
  ParsedDate := ⟨2022, 1, 1, 13, 1, 0⟩
  ParsedTotal := F64.nan

/-- A receipt with items of 4.00 and 6.00, summing to 10.00, and the given declared total
`n / d`. -/
def tenReceipt (total : String) (n d : Nat) : Receipt where
  Retailer := "Shop"
  PurchaseDate := "2022-01-02"
  PurchaseTime := "10:00"
  Items := [⟨"Milk", "4.00", F64.ofDecimal false 400 100⟩,
            ⟨"Bread", "6.00", F64.ofDecimal false 600 100⟩]
  Total := total
  ParsedDate := ⟨2022, 1, 2, 10, 0, 0⟩
  ParsedTotal := F64.ofDecimal false n d

/-- A receipt whose items score `2^63 - 1`, the largest `int`: the first price adds
`2^63 - 1024`, the second 1018, the pair 5. -/
def maxItemsReceipt : Receipt where
  Retailer := "A"
  PurchaseDate := "2022-01-01"
  PurchaseTime := "13:01"
  Items := [⟨"abc", "46116860184273870848", F64.ofDecimal false 46116860184273870848 1⟩,
            ⟨"abc", "5090", F64.ofDecimal false 5090 1⟩]
  Total := "46116860184273879040"
  ParsedDate := ⟨2022, 1, 1, 13, 1, 0⟩
  ParsedTotal := F64.ofDecimal false 46116860184273879040 1

/-! ## Sample requests -/

/-- What `json.Unmarshal` leaves of the example receipt: the string fields, the parsed
fields still zero. -/
def rawTargetReceipt : Receipt where
  Retailer := "Target"
  PurchaseDate := "2022-01-01"
  PurchaseTime := "13:01"
  Items := [⟨"Mountain Dew 12PK", "6.49", F64.fin false 0 (-1074)⟩]
  Total := "6.49"
  ParsedDate := ⟨1, 1, 1, 0, 0, 0⟩
  ParsedTotal := F64.fin false 0 (-1074)

/-- Library calls that decode the example receipt: every body unmarshals to its string
fields, and only its timestamp and its amount parse. -/
def sampleCodec : Codec where
  jsonUnmarshal := fun _ => some rawTargetReceipt
  timeParse := fun s => if s = "2022-01-01T13:01:00" then some ⟨2022, 1, 1, 13, 1, 0⟩ else none
  parseFloat := fun s => if s = "6.49" then some (F64.ofDecimal false 649 100) else none

/-- A POST of the example receipt. -/
def targetRequest : Request where
  Method := "POST"
  Path := "/receipts/process"
  ContentType := "application/json"
  Body := "example receipt"

/-- Tables of package `unicode` that hold nothing above Latin-1, for evaluating examples
whose strings are ASCII. -/
def latin1Tables : UnicodeTables where
  letter := fun _ => false
  number := fun _ => false
  digit := fun _ => false

/-! # Theorems -/

/-! ## Retailer-name points -/

theorem foldl_retailer_count (T : UnicodeTables) (l : List Char) (acc : Int) :
    l.foldl (fun points char => if IsLetter T char || IsNumber T char then points + 1 else points)
      acc
      = acc + ((l.filter (fun c => IsLetter T c || IsNumber T c)).length : Int) := by
  induction l generalizing acc with
  | nil => simp
  | cons c cs ih =>
    simp only [List.foldl_cons, List.filter_cons]
    by_cases h : (IsLetter T c || IsNumber T c) = true
    · rw [if_pos h, if_pos h, ih]
      simp only [List.length_cons]
      push_cast
      ring
    · rw [if_neg h, if_neg h, ih]

/-- C1 (counterexample): on the retailer name "½" (U+00BD, a number of category No that is
not a decimal digit) the code returns 1, while the count of letters and digits is 0. -/
theorem retailer_points_not_letter_digit_count :
    (∀ T : UnicodeTables, calculateRetailerNamePoints T "½" = 1) ∧
    (∀ T : UnicodeTables, letterOrDigitCount T "½" = 0) := by
  constructor
  · intro T
    rfl
  · intro T
    rfl

/-- C1 (amended): for every retailer string, `calculateRetailerNamePoints` is exactly the
number of its characters that are a letter or a number in the sense of `unicode.IsLetter`
and `unicode.IsNumber`; every other character contributes nothing, and
"M&M Corner Market" yields 14. -/
theorem calculateRetailerNamePoints_eq_count (T : UnicodeTables) (retailer : String) :
    calculateRetailerNamePoints T retailer = letterOrNumberCount T retailer ∧
    (∀ c : Char, IsLetter T c = false → IsNumber T c = false →
      calculateRetailerNamePoints T (retailer.push c) = calculateRetailerNamePoints T retailer) ∧
    calculateRetailerNamePoints T "M&M Corner Market" = 14 := by
  refine ⟨?_, ?_, ?_⟩
  · unfold calculateRetailerNamePoints letterOrNumberCount
    rw [foldl_retailer_count]
    simp
  · intro c h1 h2
    unfold calculateRetailerNamePoints
    rw [foldl_retailer_count, foldl_retailer_count]
    simp [String.push, List.filter_append, h1, h2]
  · rfl

/-! ## Go `int` arithmetic -/

theorem wrap64_inInt64 (i : Int) : inInt64 (wrap64 i) := by
  unfold inInt64 wrap64 minInt64 maxInt64
  constructor <;> omega

theorem wrap64_congr (i : Int) : ∃ k : Int, wrap64 i = i + k * 2 ^ 64 := by
  refine ⟨-((i + 2 ^ 63) / 2 ^ 64), ?_⟩
  unfold wrap64
  omega

/-! ## Item points -/

theorem itemStep_congr (P : Platform) (points : Int) (item : Item) :
    ∃ k : Int, itemStep P points item
      = points + (if earnsDescriptionBonus item then priceBonus P item else 0) + k * 2 ^ 64 := by
  unfold itemStep earnsDescriptionBonus
  by_cases h : len (TrimSpace item.ShortDescription) % 3 = 0
  · obtain ⟨k, hk⟩ := wrap64_congr (points + priceBonus P item)
    refine ⟨k, ?_⟩
    simp [h, addInt, hk]
  · refine ⟨0, ?_⟩
    simp [h]

theorem foldl_itemStep_congr (P : Platform) (items : List Item) (acc : Int) :
    ∃ k : Int, items.foldl (itemStep P) acc
      = acc + ((items.filter earnsDescriptionBonus).map (priceBonus P)).sum + k * 2 ^ 64 := by
  induction items generalizing acc with
  | nil => exact ⟨0, by simp⟩
  | cons item rest ih =>
    obtain ⟨k1, h1⟩ := itemStep_congr P acc item
    obtain ⟨k2, h2⟩ := ih (itemStep P acc item)
    refine ⟨k1 + k2, ?_⟩
    rw [List.foldl_cons, h2, h1, List.filter_cons]
    by_cases h : earnsDescriptionBonus item = true
    · simp only [h, if_true, List.map_cons, List.sum_cons]
      ring
    · simp only [h, if_false, Bool.false_eq_true]
      ring

theorem foldl_itemStep_inInt64 (P : Platform) (items : List Item) (acc : Int)
    (h : inInt64 acc) : inInt64 (items.foldl (itemStep P) acc) := by
  induction items generalizing acc with
  | nil => simpa using h
  | cons item rest ih =>
    rw [List.foldl_cons]
    apply ih
    unfold itemStep
    by_cases hq : len (TrimSpace item.ShortDescription) % 3 = 0
    · simp only [hq, if_true]
      exact wrap64_inInt64 _
    · simpa [hq] using h

theorem foldl_itemStep_none (P : Platform) (items : List Item) (acc : Int)
    (h : ∀ item ∈ items, len (TrimSpace item.ShortDescription) % 3 ≠ 0) :
    items.foldl (itemStep P) acc = acc := by
  induction items generalizing acc with
  | nil => rfl
  | cons item rest ih =>
    rw [List.foldl_cons]
    have hq : len (TrimSpace item.ShortDescription) % 3 ≠ 0 := h item (List.mem_cons_self _ _)
    have hs : itemStep P acc item = acc := by
      unfold itemStep
      simp [hq]
    rw [hs]
    exact ih acc (fun it hit => h it (List.mem_cons_of_mem _ hit))

theorem foldl_itemStep_cases (P : Platform) (items : List Item) (acc : Int) :
    (items.filter earnsDescriptionBonus = [] ∧ items.foldl (itemStep P) acc = acc) ∨
    inInt64 (items.foldl (itemStep P) acc) := by
  induction items generalizing acc with
  | nil => exact Or.inl ⟨rfl, rfl⟩
  | cons item rest ih =>
    by_cases hq : len (TrimSpace item.ShortDescription) % 3 = 0
    · right
      rw [List.foldl_cons]
      apply foldl_itemStep_inInt64
      unfold itemStep
      simp only [hq, if_true]
      exact wrap64_inInt64 _
    · have hs : itemStep P acc item = acc := by
        unfold itemStep
        simp [hq]
      have hb : earnsDescriptionBonus item = false := by
        unfold earnsDescriptionBonus
        simp [hq]
      rw [List.foldl_cons, hs, List.filter_cons, hb]
      simpa using ih acc

theorem toInt_of_trunc (P : Platform) (x : F64) (t : Int) (h : x.trunc = some t)
    (ht : inInt64 t) : x.toInt P = t := by
  unfold inInt64 at ht
  unfold F64.toInt
  rw [h]
  simp [ht.1, ht.2]

theorem priceBonus_hugePrice (P : Platform) :
    priceBonus P ⟨"abc", "40000000000000000000", F64.ofDecimal false 40000000000000000000 1⟩
      = 8000000000000000000 := by
  have hc : (((F64.ofDecimal false 40000000000000000000 1).mul
      (F64.ofDecimal false 2 10)).ceil).trunc = some 8000000000000000000 := by decide!
  exact toInt_of_trunc P _ _ hc (by unfold inInt64 minInt64 maxInt64; omega)

theorem calculateItemPoints_hugePrice (P : Platform) :
    calculateItemPoints P hugePriceReceipt.Items = -2446744073709551611 := by
  have hq : len (TrimSpace "abc") % 3 = 0 := by decide
  unfold calculateItemPoints hugePriceReceipt
  simp only [List.foldl_cons, List.foldl_nil, itemStep, hq, if_true, priceBonus_hugePrice P]
  decide

/-- C3 (code at the failing input, and what holds): for every list of items,
`calculateItemPoints` and `5 * floor(n / 2)` plus the sum, over exactly the items whose
trimmed description length is a multiple of 3, of the per-item `int(math.Ceil(price * 0.2))`
differ by a multiple of `2^64`, and are equal whenever that sum is in the range of `int`.
"Pepsi - 12-oz" earns nothing and a description of length 3 with price 3.00 earns 1 point.
For two items of price 4e19 with descriptions of length 3 the sum is 16000000000000000005,
and the code returns -2446744073709551611. -/
theorem calculateItemPoints_formula (P : Platform) (items : List Item) :
    (∃ k : Int, calculateItemPoints P items = itemPointsFormula P items + k * 2 ^ 64) ∧
    (inInt64 (itemPointsFormula P items) →
      calculateItemPoints P items = itemPointsFormula P items) ∧
    earnsDescriptionBonus ⟨"Pepsi - 12-oz", "3.00", F64.ofDecimal false 300 100⟩ = false ∧
    calculateItemPoints P [⟨"Pepsi - 12-oz", "3.00", F64.ofDecimal false 300 100⟩] = 0 ∧
    earnsDescriptionBonus ⟨"abc", "3.00", F64.ofDecimal false 300 100⟩ = true ∧
    calculateItemPoints P [⟨"abc", "3.00", F64.ofDecimal false 300 100⟩] = 1 ∧
    itemPointsFormula P hugePriceReceipt.Items = 16000000000000000005 ∧
    calculateItemPoints P hugePriceReceipt.Items = -2446744073709551611 := by
  have hcongr : ∃ k : Int,
      calculateItemPoints P items = itemPointsFormula P items + k * 2 ^ 64 := by
    obtain ⟨k, hk⟩ := foldl_itemStep_congr P items (0 + ((items.length / 2 : Nat) : Int) * 5)
    refine ⟨k, ?_⟩
    unfold calculateItemPoints itemPointsFormula
    simp only [hk]
    ring
  refine ⟨hcongr, ?_, by decide, ?_, by decide, ?_, ?_, calculateItemPoints_hugePrice P⟩
  · intro hS
    rcases foldl_itemStep_cases P items (0 + ((items.length / 2 : Nat) : Int) * 5) with h | h
    · unfold calculateItemPoints itemPointsFormula
      simp only [h.1, h.2, List.map_nil, List.sum_nil]
      ring
    · obtain ⟨k, hk⟩ := hcongr
      have h' : inInt64 (calculateItemPoints P items) := h
      unfold inInt64 minInt64 maxInt64 at hS h'
      omega
  · have hq : len (TrimSpace "Pepsi - 12-oz") % 3 ≠ 0 := by decide
    unfold calculateItemPoints
    simp [itemStep, hq]
  · have hq : len (TrimSpace "abc") % 3 = 0 := by decide
    have hc : (((F64.ofDecimal false 300 100).mul (F64.ofDecimal false 2 10)).ceil).trunc
        = some 1 := by decide!
    have hb : priceBonus P ⟨"abc", "3.00", F64.ofDecimal false 300 100⟩ = 1 :=
      toInt_of_trunc P _ 1 hc (by unfold inInt64 minInt64 maxInt64; omega)
    unfold calculateItemPoints
    simp only [List.foldl_cons, List.foldl_nil, itemStep, hq, if_true, hb]
    decide
  · have hb : earnsDescriptionBonus ⟨"abc", "40000000000000000000",
        F64.ofDecimal false 40000000000000000000 1⟩ = true := by decide
    unfold itemPointsFormula hugePriceReceipt
    simp only [List.filter_cons, hb, if_true, List.filter_nil, List.map_cons, List.map_nil,
      List.sum_cons, List.sum_nil, priceBonus_hugePrice P]
    decide

/-- C4: for every list of `n` items none of which earns the description bonus,
`calculateItemPoints` returns exactly `5 * floor(n / 2)`. -/
theorem calculateItemPoints_pairs (P : Platform) (items : List Item)
    (h : ∀ item ∈ items, len (TrimSpace item.ShortDescription) % 3 ≠ 0) :
    calculateItemPoints P items = 5 * ((items.length / 2 : Nat) : Int) := by
  unfold calculateItemPoints
  simp only [foldl_itemStep_none P items _ h]
  ring

/-- C4 (witness): with the description "Pepsi - 12-oz" (trimmed length 13), 1 item gives 0,
2 items give 5, 3 items give 5 and 4 items give 10. -/
theorem calculateItemPoints_pairs_witness :
    calculateItemPoints amd64 (List.replicate 1 ⟨"Pepsi - 12-oz", "1.25", F64.ofDecimal false 125 100⟩) = 0 ∧
    calculateItemPoints amd64 (List.replicate 2 ⟨"Pepsi - 12-oz", "1.25", F64.ofDecimal false 125 100⟩) = 5 ∧
    calculateItemPoints amd64 (List.replicate 3 ⟨"Pepsi - 12-oz", "1.25", F64.ofDecimal false 125 100⟩) = 5 ∧
    calculateItemPoints amd64 (List.replicate 4 ⟨"Pepsi - 12-oz", "1.25", F64.ofDecimal false 125 100⟩) = 10 := by
  have hq : ∀ n : Nat, ∀ item ∈ List.replicate n
      (⟨"Pepsi - 12-oz", "1.25", F64.ofDecimal false 125 100⟩ : Item),
      len (TrimSpace item.ShortDescription) % 3 ≠ 0 := by
    intro n item hmem
    rw [List.eq_of_mem_replicate hmem]
    decide
  refine ⟨?_, ?_, ?_, ?_⟩
  · exact calculateItemPoints_pairs amd64 _ (hq 1)
  · exact calculateItemPoints_pairs amd64 _ (hq 2)
  · exact calculateItemPoints_pairs amd64 _ (hq 3)
  · exact calculateItemPoints_pairs amd64 _ (hq 4)

/-! ## Date and time points -/

/-- C5: for every purchase time with hour in 0..23 and minute in 0..59,
`calculateTimePoints` is 10 when the time lies in [14:00, 16:00) and 0 otherwise. -/
theorem calculateTimePoints_afternoon (t : Time) (hh : t.hour ≤ 23) (hm : t.minute ≤ 59) :
    calculateTimePoints t
      = if 14 * 60 ≤ t.minuteOfDay ∧ t.minuteOfDay < 16 * 60 then 10 else 0 := by
  unfold calculateTimePoints Time.Hour Time.minuteOfDay between2And4PMPoints
  by_cases h : 14 ≤ t.hour ∧ t.hour < 16
  · have h1 : (t.hour : Int) ≥ 14 ∧ (t.hour : Int) < 16 := by omega
    have h2 : 14 * 60 ≤ t.hour * 60 + t.minute ∧ t.hour * 60 + t.minute < 16 * 60 := by omega
    simp only [h1, h2, and_self, if_true]
  · have h1 : ¬ ((t.hour : Int) ≥ 14 ∧ (t.hour : Int) < 16) := by omega
    have h2 : ¬ (14 * 60 ≤ t.hour * 60 + t.minute ∧ t.hour * 60 + t.minute < 16 * 60) := by
      omega
    simp only [h1, h2, if_false]

/-- C5 (witness): 14:00 and 15:59 give 10, 13:59 and 16:00 give 0. -/
theorem calculateTimePoints_afternoon_witness :
    calculateTimePoints ⟨2022, 1, 1, 14, 0, 0⟩ = 10 ∧
    calculateTimePoints ⟨2022, 1, 1, 15, 59, 0⟩ = 10 ∧
    calculateTimePoints ⟨2022, 1, 1, 13, 59, 0⟩ = 0 ∧
    calculateTimePoints ⟨2022, 1, 1, 16, 0, 0⟩ = 0 := by
  refine ⟨?_, ?_, ?_, ?_⟩
  · rw [calculateTimePoints_afternoon ⟨2022, 1, 1, 14, 0, 0⟩ (by decide) (by decide)]
    decide
  · rw [calculateTimePoints_afternoon ⟨2022, 1, 1, 15, 59, 0⟩ (by decide) (by decide)]
    decide
  · rw [calculateTimePoints_afternoon ⟨2022, 1, 1, 13, 59, 0⟩ (by decide) (by decide)]
    decide
  · rw [calculateTimePoints_afternoon ⟨2022, 1, 1, 16, 0, 0⟩ (by decide) (by decide)]
    decide

/-- C6: for every purchase date (in particular for every day-of-month in 1..31),
`calculateDatePoints` is 6 if the day is odd and 0 if it is even; days 1, 3, 13, 31 give 6
and days 2, 10, 30 give 0. -/
theorem calculateDatePoints_odd_day (t : Time) :
    (t.day % 2 = 1 → calculateDatePoints t = 6) ∧
    (t.day % 2 = 0 → calculateDatePoints t = 0) ∧
    calculateDatePoints ⟨2022, 1, 1, 0, 0, 0⟩ = 6 ∧
    calculateDatePoints ⟨2022, 1, 3, 0, 0, 0⟩ = 6 ∧
    calculateDatePoints ⟨2022, 1, 13, 0, 0, 0⟩ = 6 ∧
    calculateDatePoints ⟨2022, 1, 31, 0, 0, 0⟩ = 6 ∧
    calculateDatePoints ⟨2022, 1, 2, 0, 0, 0⟩ = 0 ∧
    calculateDatePoints ⟨2022, 1, 10, 0, 0, 0⟩ = 0 ∧
    calculateDatePoints ⟨2022, 1, 30, 0, 0, 0⟩ = 0 := by
  refine ⟨?_, ?_, by decide, by decide, by decide, by decide, by decide, by decide, by decide⟩
  · intro h
    have h' : (t.day : Int) % 2 = 1 := by omega
    simp [calculateDatePoints, Time.Day, oddDayPoints, h']
  · intro h
    have h' : ¬ ((t.day : Int) % 2 = 1) := by omega
    simp [calculateDatePoints, Time.Day, h']

/-! ## Total points -/

theorem calculateTotalPoints_of_trunc (P : Platform) (total : F64) (t : Int)
    (h : total.trunc = some t) (ht : inInt64 t) :
    calculateTotalPoints P total
      = (if total.eq (F64.ofInt t) then 50 else 0)
        + (if ((total.mul (F64.ofInt 100)).mod (F64.ofInt 25)).eq (F64.ofInt 0) then 25
           else 0) := by
  unfold calculateTotalPoints
  rw [toInt_of_trunc P total t h ht]
  by_cases h1 : total.eq (F64.ofInt t) = true <;>
    by_cases h2 : ((total.mul (F64.ofInt 100)).mod (F64.ofInt 25)).eq (F64.ofInt 0) = true <;>
    simp only [h1, h2, if_true, if_false, Bool.false_eq_true] <;> decide

theorem calculateTotalPoints_bounds (P : Platform) (total : F64) :
    0 ≤ calculateTotalPoints P total ∧ calculateTotalPoints P total ≤ 75 := by
  unfold calculateTotalPoints
  by_cases h1 : total.eq (F64.ofInt (total.toInt P)) = true <;>
    by_cases h2 : ((total.mul (F64.ofInt 100)).mod (F64.ofInt 25)).eq (F64.ofInt 0) = true <;>
    simp only [h1, h2, if_true, if_false, Bool.false_eq_true] <;> decide

theorem bitLenAux_le (fuel : Nat) : ∀ (n acc k : Nat), n < 2 ^ k →
    bitLenAux fuel n acc ≤ acc + k := by
  induction fuel with
  | zero => intro n acc k _; simp [bitLenAux]
  | succ fuel ih =>
    intro n acc k hn
    unfold bitLenAux
    by_cases h0 : n = 0
    · simp [h0]
    · simp only [h0, if_false]
      cases k with
      | zero => simp at hn; exact absurd hn h0
      | succ k =>
        have h2 : n / 2 < 2 ^ k := by
          rw [pow_succ] at hn
          omega
        have := ih (n / 2) (acc + 1) k h2
        omega

theorem bitLen_le (n k : Nat) (h : n < 2 ^ k) : bitLen n ≤ k := by
  have := bitLenAux_le n n 0 k h
  unfold bitLen
  omega

theorem floorLog2_one_le (n : Nat) (h : n < 2 ^ 64) : floorLog2 n 1 ≤ 63 := by
  have hb := bitLen_le n 64 h
  have h1 : bitLen 1 = 1 := by decide
  unfold floorLog2
  simp only [h1]
  split <;> omega

theorem pow_1138 : (2 : Nat) ^ 64 * 2 ^ 1074 = 2 ^ 1138 := by
  rw [← pow_add]

/-- The conversion of an integer of magnitude at most `2^63` is finite and below `2^64`
(in units of `2^(-1074)`, below `2^1138`). -/
theorem roundQ_int_bound (s : Bool) (n : Nat) (h : n ≤ 2 ^ 63) :
    ∃ m e, roundQ s n 1 = F64.fin s m e ∧ -1074 ≤ e ∧ m * 2 ^ (e + 1074).toNat < 2 ^ 1138 := by
  by_cases h0 : n = 0
  · refine ⟨0, -1074, ?_, by omega, by norm_num⟩
    simp [roundQ, h0]
  · have hfl := floorLog2_one_le n (by omega)
    unfold roundQ
    simp only [h0, if_false]
    generalize floorLog2 n 1 = fl at hfl
    by_cases he : (0 : Int) ≤ max (fl - 52) (-1074)
    · -- non-negative exponent: 0 ≤ e ≤ 11
      obtain ⟨e', he'⟩ : ∃ e' : Nat, max (fl - 52) (-1074) = (e' : Int) :=
        ⟨(max (fl - 52) (-1074)).toNat, by omega⟩
      have he11 : e' ≤ 11 := by omega
      rw [he']
      have hneg : (-(e' : Int)).toNat = 0 := by omega
      have hpos : ((e' : Int)).toNat = e' := by omega
      simp only [hneg, hpos, pow_zero, mul_one, one_mul]
      have hq1 : (if 2 ^ e' < 2 * (n % 2 ^ e') ∨ 2 * (n % 2 ^ e') = 2 ^ e' ∧ n / 2 ^ e' % 2 = 1
          then n / 2 ^ e' + 1 else n / 2 ^ e') ≤ n / 2 ^ e' + 1 := by
        split <;> omega
      generalize (if 2 ^ e' < 2 * (n % 2 ^ e') ∨ 2 * (n % 2 ^ e') = 2 ^ e' ∧ n / 2 ^ e' % 2 = 1
          then n / 2 ^ e' + 1 else n / 2 ^ e') = q1 at hq1
      have hdiv : n / 2 ^ e' * 2 ^ e' ≤ n := Nat.div_mul_le_self n (2 ^ e')
      have hpe : 2 ^ e' ≤ 2 ^ 11 := Nat.pow_le_pow_right (by omega) he11
      have hX : q1 * 2 ^ e' < 2 ^ 64 := by
        calc q1 * 2 ^ e' ≤ (n / 2 ^ e' + 1) * 2 ^ e' := Nat.mul_le_mul_right _ hq1
          _ = n / 2 ^ e' * 2 ^ e' + 2 ^ e' := by ring
          _ ≤ 2 ^ 63 + 2 ^ 11 := by omega
          _ < 2 ^ 64 := by norm_num
      have hbound : q1 * 2 ^ (e' + 1074) < 2 ^ 1138 := by
        rw [pow_add, ← mul_assoc, ← pow_1138]
        exact Nat.mul_lt_mul_of_pos_right hX (by positivity)
      by_cases hc : q1 = 2 ^ 53
      · refine ⟨2 ^ 52, (e' : Int) + 1, ?_, by omega, ?_⟩
        · simp only [hc, if_true]
          rw [if_neg (by omega)]
        · have ht : ((e' : Int) + 1 + 1074).toNat = (e' + 1074) + 1 := by omega
          rw [ht, pow_succ]
          rw [hc] at hbound
          have : (2 : Nat) ^ 52 * (2 ^ (e' + 1074) * 2) = 2 ^ 53 * 2 ^ (e' + 1074) := by ring
          omega
      · refine ⟨q1, (e' : Int), ?_, by omega, ?_⟩
        · simp only [hc, if_false]
          rw [if_neg (by omega)]
        · have ht : ((e' : Int) + 1074).toNat = e' + 1074 := by omega
          rw [ht]
          exact hbound
    · -- negative exponent: the integer is represented exactly
      have hlo : -1074 ≤ max (fl - 52) (-1074) := le_max_right _ _
      generalize max (fl - 52) (-1074) = e at he hlo
      obtain ⟨a, ha⟩ : ∃ a : Nat, -e = (a : Int) := ⟨(-e).toNat, by omega⟩
      have hneg : (-e).toNat = a := by omega
      have hpos : e.toNat = 0 := by omega
      have ha1 : a ≤ 1074 := by omega
      simp only [hneg, hpos, pow_zero, mul_one, Nat.div_one, Nat.mod_one]
      have hq1 : (if 1 < 2 * 0 ∨ 2 * 0 = 1 ∧ n * 2 ^ a % 2 = 1 then n * 2 ^ a + 1 else n * 2 ^ a)
          = n * 2 ^ a := by
        rw [if_neg (by omega)]
      rw [hq1]
      have hbound : n * 2 ^ a * 2 ^ (1074 - a) < 2 ^ 1138 := by
        have hp : (2 : Nat) ^ a * 2 ^ (1074 - a) = 2 ^ 1074 := by
          rw [← pow_add]
          congr 1
          omega
        rw [mul_assoc, hp, ← pow_1138]
        have : n < 2 ^ 64 := by omega
        exact Nat.mul_lt_mul_of_pos_right this (by positivity)
      by_cases hc : n * 2 ^ a = 2 ^ 53
      · refine ⟨2 ^ 52, e + 1, ?_, by omega, ?_⟩
        · simp only [hc, if_true]
          rw [if_neg (by omega)]
        · have ht : (e + 1 + 1074).toNat = (1074 - a) + 1 := by omega
          rw [ht, pow_succ]
          rw [hc] at hbound
          have : (2 : Nat) ^ 52 * (2 ^ (1074 - a) * 2) = 2 ^ 53 * 2 ^ (1074 - a) := by ring
          omega
      · refine ⟨n * 2 ^ a, e, ?_, by omega, ?_⟩
        · simp only [hc, if_false]
          rw [if_neg (by omega)]
        · have ht : (e + 1074).toNat = 1074 - a := by omega
          rw [ht]
          exact hbound

theorem toInt_inInt64 (P : Platform) (x : F64) : inInt64 (x.toInt P) := by
  unfold F64.toInt
  cases x.trunc with
  | none => exact wrap64_inInt64 _
  | some t =>
    by_cases h : minInt64 ≤ t ∧ t ≤ maxInt64
    · simp only [h, and_self, if_true]
      exact h
    · simp only [h, if_false]
      exact wrap64_inInt64 _

/-- No Go `int` converts to the `float64` value `2^64`. -/
theorem two_pow_64_ne_ofInt (v : Int) (h : inInt64 v) :
    (F64.fin false (2 ^ 52) 12).eq (F64.ofInt v) = false := by
  unfold inInt64 minInt64 maxInt64 at h
  obtain ⟨m, e, hr, _, hb⟩ := roundQ_int_bound (decide (v < 0)) v.natAbs (by omega)
  have hs : (F64.fin false (2 ^ 52) 12).scaled = some ((2 ^ 1138 : Nat) : Int) := by
    decide!
  generalize (2 : Nat) ^ 1138 = B at hb hs
  unfold F64.ofInt
  rw [hr]
  unfold F64.eq
  simp only [hs]
  unfold F64.scaled
  by_cases hv : v < 0
  · simp only [hv, decide_True, if_true]
    have : ((B : Nat) : Int) ≠ -((m * 2 ^ (e + 1074).toNat : Nat) : Int) := by omega
    simpa using this
  · simp only [hv, decide_False, Bool.false_eq_true, if_false]
    have : ((B : Nat) : Int) ≠ ((m * 2 ^ (e + 1074).toNat : Nat) : Int) := by omega
    simpa using this

/-- C2 (code at the failing input): the total `2^64` is a whole number of currency units
and a multiple of 0.25, yet on every platform `calculateTotalPoints` returns 25, not 75:
`int(total)` cannot represent the total, so the round-total test fails.  On the totals the
specification names the code agrees with the claim: 35.00 gives 50 + 25, 35.35 gives 0,
12.25 gives 25 and 12.30 gives 0. -/
theorem calculateTotalPoints_round_total_missed (P : Platform) :
    F64.ofDecimal false 18446744073709551616 1 = F64.fin false (2 ^ 52) 12 ∧
    calculateTotalPoints P (F64.ofDecimal false 18446744073709551616 1) = 25 ∧
    calculateTotalPoints P (F64.ofDecimal false 3500 100) = 75 ∧
    calculateTotalPoints P (F64.ofDecimal false 3535 100) = 0 ∧
    calculateTotalPoints P (F64.ofDecimal false 1225 100) = 25 ∧
    calculateTotalPoints P (F64.ofDecimal false 1230 100) = 0 := by
  have hval : F64.ofDecimal false 18446744073709551616 1 = F64.fin false (2 ^ 52) 12 := by
    decide!
  refine ⟨hval, ?_, ?_, ?_, ?_, ?_⟩
  · rw [hval]
    have h1 := two_pow_64_ne_ofInt _ (toInt_inInt64 P (F64.fin false (2 ^ 52) 12))
    have h2 : (((F64.fin false (2 ^ 52) 12).mul (F64.ofInt 100)).mod (F64.ofInt 25)).eq
        (F64.ofInt 0) = true := by decide!
    unfold calculateTotalPoints
    simp only [h1, h2, if_true, if_false, Bool.false_eq_true]
    decide
  · rw [calculateTotalPoints_of_trunc P _ 35 (by decide!)
      (by unfold inInt64 minInt64 maxInt64; omega)]
    decide!
  · rw [calculateTotalPoints_of_trunc P _ 35 (by decide!)
      (by unfold inInt64 minInt64 maxInt64; omega)]
    decide!
  · rw [calculateTotalPoints_of_trunc P _ 12 (by decide!)
      (by unfold inInt64 minInt64 maxInt64; omega)]
    decide!
  · rw [calculateTotalPoints_of_trunc P _ 12 (by decide!)
      (by unfold inInt64 minInt64 maxInt64; omega)]
    decide!

/-! ## The whole score -/

/-- C7 (code at the failing input): `validateReceipt` accepts the receipt with two items of
price 4e19 (descriptions of length 3) and total 8e19, and on every platform
`CalculatePoints` returns a negative number for it: each item adds 8e18 and the sum leaves
the range of `int`.  `validateReceipt` also accepts a receipt whose price is NaN, for
which `CalculatePoints` is negative on amd64. -/
theorem CalculatePoints_negative (P : Platform) (T : UnicodeTables) :
    validateReceipt hugePriceReceipt = none ∧
    CalculatePoints P T hugePriceReceipt < 0 ∧
    validateReceipt nanPriceReceipt = none ∧
    CalculatePoints amd64 T nanPriceReceipt = -9223372036854775726 := by
  have hname : calculateRetailerNamePoints T "A" = 1 := rfl
  have htot := calculateTotalPoints_bounds P (F64.ofDecimal false 80000000000000000000 1)
  have hnan : calculateItemPoints amd64 nanPriceReceipt.Items = -9223372036854775808 := by
    decide!
  have htot1 : calculateTotalPoints amd64 (F64.ofDecimal false 100 100) = 75 := by decide!
  have hd : calculateDatePoints ⟨2022, 1, 1, 13, 1, 0⟩ = 6 := by decide
  have ht : calculateTimePoints ⟨2022, 1, 1, 13, 1, 0⟩ = 0 := by decide
  refine ⟨by decide!, ?_, by decide!, ?_⟩
  · have hi : calculateItemPoints P
        [⟨"abc", "40000000000000000000", F64.ofDecimal false 40000000000000000000 1⟩,
         ⟨"abc", "40000000000000000000", F64.ofDecimal false 40000000000000000000 1⟩]
        = -2446744073709551611 := calculateItemPoints_hugePrice P
    unfold CalculatePoints hugePriceReceipt
    simp only [hname, hi, hd, ht]
    generalize calculateTotalPoints P (F64.ofDecimal false 80000000000000000000 1) = tp at htot
    unfold addInt wrap64
    omega
  · have hi : calculateItemPoints amd64 [⟨"abc", "NaN", F64.nan⟩]
        = -9223372036854775808 := hnan
    unfold CalculatePoints nanPriceReceipt
    simp only [hname, hi, hd, ht, htot1]
    decide!

/-- C8: for the receipt with retailer "Target", date 2022-01-01, time 13:01, the single item
("Mountain Dew 12PK", 6.49) and total 6.49, `CalculatePoints` returns 12: 6 for the
retailer, 0 for the total, 0 for the items (trimmed description length 17), 6 for the odd
day and 0 for the time. -/
theorem CalculatePoints_target (P : Platform) (T : UnicodeTables) :
    CalculatePoints P T targetReceipt = 12 ∧
    calculateRetailerNamePoints T targetReceipt.Retailer = 6 ∧
    calculateTotalPoints P targetReceipt.ParsedTotal = 0 ∧
    calculateItemPoints P targetReceipt.Items = 0 ∧
    len (TrimSpace "Mountain Dew 12PK") = 17 ∧
    calculateDatePoints targetReceipt.ParsedDate = 6 ∧
    calculateTimePoints targetReceipt.ParsedDate = 0 := by
  have hname : calculateRetailerNamePoints T "Target" = 6 := rfl
  have htot : calculateTotalPoints P (F64.ofDecimal false 649 100) = 0 := by
    rw [calculateTotalPoints_of_trunc P _ 6 (by decide!)
      (by unfold inInt64 minInt64 maxInt64; omega)]
    decide!
  have hitems : calculateItemPoints P
      [⟨"Mountain Dew 12PK", "6.49", F64.ofDecimal false 649 100⟩] = 0 := by
    have hq : len (TrimSpace "Mountain Dew 12PK") % 3 ≠ 0 := by decide
    unfold calculateItemPoints
    simp [itemStep, hq]
  have hd : calculateDatePoints ⟨2022, 1, 1, 13, 1, 0⟩ = 6 := by decide
  have ht : calculateTimePoints ⟨2022, 1, 1, 13, 1, 0⟩ = 0 := by decide
  refine ⟨?_, hname, htot, hitems, by decide, hd, ht⟩
  unfold CalculatePoints targetReceipt
  simp only [hname, htot, hitems, hd, ht]
  decide!

/-! ## The store -/

/-- C9: for every store state, receipt and drawn identifier, `CalculateAndSaveReceipt`
returns the points `CalculatePoints` gives the receipt, and `GetReceipt` of the returned
identifier on the resulting store succeeds with an entry holding those points and the
submitted receipt. -/
theorem CalculateAndSaveReceipt_then_GetReceipt (P : Platform) (T : UnicodeTables)
    (s : Store) (receipt : Receipt) (id : String) :
    (s.CalculateAndSaveReceipt P T receipt id).1.2 = CalculatePoints P T receipt ∧
    ((s.CalculateAndSaveReceipt P T receipt id).2.GetReceipt
        (s.CalculateAndSaveReceipt P T receipt id).1.1).1
      = (some { Receipt := receipt, Points := CalculatePoints P T receipt }, none) := by
  constructor
  · rfl
  · simp [Store.CalculateAndSaveReceipt, Store.SaveReceipt, Store.GetReceipt]

/-- C10: `GetReceipt` of an identifier that is not a key of the store (every identifier on
a new store) returns no entry and the not-found error; of an identifier that is a key it
returns that key's stored entry and no error; in both cases the store is unchanged. -/
theorem GetReceipt_lookup (s : Store) (id : String) :
    (¬ s.hasKey id → (s.GetReceipt id).1 = (none, some errReceiptNotFound)) ∧
    (∀ entry, s.receipts id = some entry → (s.GetReceipt id).1 = (some entry, none)) ∧
    (s.hasKey id → ∃ entry, s.receipts id = some entry ∧
      (s.GetReceipt id).1 = (some entry, none)) ∧
    (s.GetReceipt id).2 = s ∧
    ¬ NewStore.hasKey id ∧
    NewStore.GetReceipt id = ((none, some errReceiptNotFound), NewStore) := by
  refine ⟨?_, ?_, ?_, ?_, ?_, rfl⟩
  · intro h
    unfold Store.hasKey at h
    unfold Store.GetReceipt
    cases hr : s.receipts id with
    | none => rfl
    | some v => simp [hr] at h
  · intro entry h
    unfold Store.GetReceipt
    rw [h]
  · intro h
    unfold Store.hasKey at h
    unfold Store.GetReceipt
    cases hr : s.receipts id with
    | none => simp [hr] at h
    | some v => exact ⟨v, rfl, rfl⟩
  · unfold Store.GetReceipt
    cases s.receipts id <;> rfl
  · simp [Store.hasKey, NewStore]

/-! ## Receipt validation -/

theorem F64.lt_false_iff_le (x y : F64) (hx : x ≠ F64.nan) (hy : y ≠ F64.nan) :
    x.lt y = false ↔ y.le x = true := by
  cases x with
  | nan => exact absurd rfl hx
  | inf s =>
    cases y with
    | nan => exact absurd rfl hy
    | inf t => cases s <;> cases t <;> simp [F64.lt, F64.le, F64.eq]
    | fin t n f => cases s <;> simp [F64.lt, F64.le, F64.eq]
  | fin s m e =>
    cases y with
    | nan => exact absurd rfl hy
    | inf t => cases t <;> simp [F64.lt, F64.le, F64.eq]
    | fin t n f =>
      simp only [F64.lt, F64.le, F64.eq, F64.scaled, Bool.or_eq_true, decide_eq_true_eq,
        decide_eq_false_iff_not, beq_iff_eq, Option.some.injEq]
      omega

theorem validateItems_ok_iff (items : List Item) (i : Nat) (sum s' : F64) :
    validateItems items i sum = .ok s' ↔
      (∀ item ∈ items, TrimSpace item.ShortDescription ≠ "" ∧
        item.ParsedPrice.le (F64.ofInt 0) = false) ∧
      s' = items.foldl (fun sum item => sum.add item.ParsedPrice) sum := by
  induction items generalizing i sum with
  | nil =>
    simp only [validateItems, List.foldl_nil, List.not_mem_nil, false_implies, implies_true,
      true_and]
    constructor
    · intro h
      injection h with h
      exact h.symm
    · intro h
      rw [h]
  | cons item rest ih =>
    unfold validateItems
    by_cases hd : TrimSpace item.ShortDescription = ""
    · simp [hd]
    · by_cases hp : item.ParsedPrice.le (F64.ofInt 0) = true
      · simp [hd, hp]
      · have hp' : item.ParsedPrice.le (F64.ofInt 0) = false := by simpa using hp
        simp only [hd, hp', if_false, Bool.false_eq_true, ih, List.foldl_cons, List.mem_cons,
          forall_eq_or_imp, ne_eq, not_false_eq_true, and_self, true_and]

theorem validateItems_error_or_ok (items : List Item) (i : Nat) (sum : F64) :
    (∃ e, validateItems items i sum = .error e) ∨ (∃ s', validateItems items i sum = .ok s') := by
  cases h : validateItems items i sum with
  | error e => exact Or.inl ⟨e, rfl⟩
  | ok s' => exact Or.inr ⟨s', rfl⟩

/-- What `validateReceipt` tests, condition by condition. -/
theorem validateReceipt_none_iff (r : Receipt) :
    validateReceipt r = none ↔
      TrimSpace r.Retailer ≠ "" ∧ r.Items ≠ [] ∧
      (∀ item ∈ r.Items, TrimSpace item.ShortDescription ≠ "" ∧
        item.ParsedPrice.le (F64.ofInt 0) = false) ∧
      (r.ParsedTotal.sub (sumPrices r.Items)).lt (F64.ofDecimal true 1 100) = false ∧
      (F64.ofDecimal false 1 100).lt (r.ParsedTotal.sub (sumPrices r.Items)) = false := by
  unfold validateReceipt
  by_cases hr : TrimSpace r.Retailer = ""
  · simp [hr]
  · by_cases hi : r.Items.length = 0
    · have : r.Items = [] := List.length_eq_zero.mp hi
      simp [hr, hi, this]
    · have hne : r.Items ≠ [] := fun h => hi (by rw [h]; rfl)
      simp only [hr, hi, if_false, ne_eq, not_false_eq_true, hne, true_and]
      rcases validateItems_error_or_ok r.Items 0 (F64.ofInt 0) with ⟨e, he⟩ | ⟨s', hs⟩
      · rw [he]
        constructor
        · intro h
          cases h
        · intro h
          have := (validateItems_ok_iff r.Items 0 (F64.ofInt 0) _).mpr ⟨h.1, rfl⟩
          rw [he] at this
          cases this
      · rw [hs]
        obtain ⟨hall, hsum⟩ := (validateItems_ok_iff r.Items 0 (F64.ofInt 0) s').mp hs
        have hsum' : s' = sumPrices r.Items := hsum
        simp only [hsum', F64.gt]
        constructor
        · intro h
          refine ⟨hall, ?_⟩
          by_cases hc : ((r.ParsedTotal.sub (sumPrices r.Items)).lt (F64.ofDecimal true 1 100) ||
              (F64.ofDecimal false 1 100).lt (r.ParsedTotal.sub (sumPrices r.Items))) = true
          · simp [hc] at h
          · simpa using hc
        · intro h
          simp [h.2.1, h.2.2]

theorem F64.lt_nan (x : F64) : x.lt F64.nan = false := by
  cases x <;> rfl

theorem F64.le_nan (x : F64) : x.le F64.nan = false := by
  cases x <;> rfl

theorem receiptAcceptable_iff_of_no_nan (r : Receipt)
    (hp : ∀ item ∈ r.Items, item.ParsedPrice ≠ F64.nan)
    (hd : r.ParsedTotal.sub (sumPrices r.Items) ≠ F64.nan) :
    validateReceipt r = none ↔ receiptAcceptable r := by
  have hz : F64.ofInt 0 ≠ F64.nan := by decide
  have hlo : F64.ofDecimal true 1 100 ≠ F64.nan := by decide!
  have hhi : F64.ofDecimal false 1 100 ≠ F64.nan := by decide!
  rw [validateReceipt_none_iff]
  unfold receiptAcceptable withinTolerance
  rw [F64.lt_false_iff_le _ _ hd hlo, F64.lt_false_iff_le _ _ hhi hd]
  constructor
  · rintro ⟨h1, h2, h3, h4, h5⟩
    refine ⟨h1, h2, ?_, h4, h5⟩
    intro item hm
    refine ⟨(h3 item hm).1, ?_⟩
    have hle := (h3 item hm).2
    cases hlt : (F64.ofInt 0).lt item.ParsedPrice with
    | true => rfl
    | false =>
      rw [(F64.lt_false_iff_le _ _ hz (hp item hm)).mp hlt] at hle
      cases hle
  · rintro ⟨h1, h2, h3, h4, h5⟩
    refine ⟨h1, h2, ?_, h4, h5⟩
    intro item hm
    refine ⟨(h3 item hm).1, ?_⟩
    have hlt := (h3 item hm).2
    cases hle : item.ParsedPrice.le (F64.ofInt 0) with
    | false => rfl
    | true =>
      have := (F64.lt_false_iff_le _ _ hz (hp item hm)).mpr hle
      rw [this] at hlt
      cases hlt

/-- C11 (code at the failing inputs, and what holds): `validateReceipt` accepts the receipt
whose only price is NaN, and the receipt whose total is NaN, although neither meets the
conditions of the specification (a NaN price is not greater than zero, a NaN difference is
not within 0.01).  For every receipt whose prices and whose difference between total and
sum are not NaN, `validateReceipt` accepts it if and only if the conditions hold.  Items
summing to 10.00 are rejected with total 10.50 and accepted with total 10.00 or 10.005. -/
theorem validateReceipt_accepts_nan :
    validateReceipt nanPriceReceipt = none ∧ ¬ receiptAcceptable nanPriceReceipt ∧
    validateReceipt nanTotalReceipt = none ∧ ¬ receiptAcceptable nanTotalReceipt ∧
    (∀ r : Receipt, (∀ item ∈ r.Items, item.ParsedPrice ≠ F64.nan) →
      r.ParsedTotal.sub (sumPrices r.Items) ≠ F64.nan →
      (validateReceipt r = none ↔ receiptAcceptable r)) ∧
    sumPrices (tenReceipt "10.00" 1000 100).Items = F64.ofDecimal false 1000 100 ∧
    validateReceipt (tenReceipt "10.50" 1050 100) ≠ none ∧
    validateReceipt (tenReceipt "10.00" 1000 100) = none ∧
    validateReceipt (tenReceipt "10.005" 10005 1000) = none := by
  refine ⟨by decide!, ?_, by decide!, ?_, receiptAcceptable_iff_of_no_nan,
    by decide!, by decide!, by decide!, by decide!⟩
  · intro h
    have h3 := (h.2.2.1 ⟨"abc", "NaN", F64.nan⟩ (by simp [nanPriceReceipt])).2
    rw [F64.lt_nan] at h3
    cases h3
  · intro h
    have h4 := h.2.2.2.1
    have hsub : nanTotalReceipt.ParsedTotal.sub (sumPrices nanTotalReceipt.Items) = F64.nan := by
      decide!
    rw [hsub, F64.le_nan] at h4
    cases h4

/-! ## The store: identifiers and entries -/

theorem SaveReceipt_receipts (s : Store) (receipt : Receipt) (points : Int) (id k : String) :
    (s.SaveReceipt receipt points id).2.receipts k
      = if k = id then some { Receipt := receipt, Points := points } else s.receipts k := rfl

theorem SaveReceipt_hasKey (s : Store) (receipt : Receipt) (points : Int) (id k : String) :
    (s.SaveReceipt receipt points id).2.hasKey k ↔ s.hasKey k ∨ k = id := by
  unfold Store.hasKey
  rw [SaveReceipt_receipts]
  by_cases h : k = id
  · simp [h]
  · simp [h]

theorem SaveReceipt_preserves (s : Store) (receipt : Receipt) (points : Int) (id : String)
    (hfresh : ¬ s.hasKey id) (k : String) (entry : StoredReceipt)
    (h : s.receipts k = some entry) :
    (s.SaveReceipt receipt points id).2.receipts k = some entry := by
  rw [SaveReceipt_receipts]
  by_cases hk : k = id
  · exfalso
    apply hfresh
    unfold Store.hasKey
    rw [← hk, h]
    rfl
  · simp [hk, h]

/-- C12: if each identifier drawn is not yet a key of the store, submitting the same
receipt twice yields two distinct identifiers and the same points, and afterwards
`GetReceipt` succeeds on both identifiers with that receipt and those points. -/
theorem submit_twice (P : Platform) (T : UnicodeTables) (s : Store) (receipt : Receipt)
    (id1 id2 : String) (_h1 : ¬ s.hasKey id1)
    (h2 : ¬ (s.CalculateAndSaveReceipt P T receipt id1).2.hasKey id2) :
    (s.CalculateAndSaveReceipt P T receipt id1).1.1
      ≠ ((s.CalculateAndSaveReceipt P T receipt id1).2.CalculateAndSaveReceipt
          P T receipt id2).1.1 ∧
    (s.CalculateAndSaveReceipt P T receipt id1).1.2
      = ((s.CalculateAndSaveReceipt P T receipt id1).2.CalculateAndSaveReceipt
          P T receipt id2).1.2 ∧
    (((s.CalculateAndSaveReceipt P T receipt id1).2.CalculateAndSaveReceipt
          P T receipt id2).2.GetReceipt id1).1
      = (some { Receipt := receipt, Points := CalculatePoints P T receipt }, none) ∧
    (((s.CalculateAndSaveReceipt P T receipt id1).2.CalculateAndSaveReceipt
          P T receipt id2).2.GetReceipt id2).1
      = (some { Receipt := receipt, Points := CalculatePoints P T receipt }, none) := by
  have hne : id1 ≠ id2 := by
    intro h
    apply h2
    rw [← h]
    exact (SaveReceipt_hasKey s receipt _ id1 id1).mpr (Or.inr rfl)
  refine ⟨hne, rfl, ?_, ?_⟩
  · simp [Store.CalculateAndSaveReceipt, Store.SaveReceipt, Store.GetReceipt, hne]
  · simp [Store.CalculateAndSaveReceipt, Store.SaveReceipt, Store.GetReceipt]

/-- C12 (witness): two submissions of the example receipt to a new store, under the
identifiers "id-1" and "id-2". -/
theorem submit_twice_witness :
    (NewStore.CalculateAndSaveReceipt amd64 latin1Tables
        targetReceipt "id-1").1.1
      ≠ ((NewStore.CalculateAndSaveReceipt amd64
            latin1Tables
            targetReceipt "id-1").2.CalculateAndSaveReceipt amd64
            latin1Tables targetReceipt "id-2").1.1 :=
  (submit_twice amd64 latin1Tables NewStore targetReceipt
    "id-1" "id-2" (by simp [Store.hasKey, NewStore])
    (by simp [Store.hasKey, NewStore, Store.CalculateAndSaveReceipt, Store.SaveReceipt])).1

/-- C13: the store is append-only.  With the identifier drawn not yet a key, `SaveReceipt`
and `CalculateAndSaveReceipt` keep every key with its receipt and points and add exactly
one key, the identifier drawn; `GetReceipt` and `GetAllReceipts` leave the store as it
was, and the map `GetAllReceipts` returns holds the store's entries. -/
theorem store_append_only (P : Platform) (T : UnicodeTables) (s : Store) (receipt : Receipt)
    (points : Int) (id : String) (hfresh : ¬ s.hasKey id) :
    (∀ k entry, s.receipts k = some entry →
      (s.SaveReceipt receipt points id).2.receipts k = some entry) ∧
    (∀ k, (s.SaveReceipt receipt points id).2.hasKey k ↔ s.hasKey k ∨ k = id) ∧
    (∀ k entry, s.receipts k = some entry →
      (s.CalculateAndSaveReceipt P T receipt id).2.receipts k = some entry) ∧
    (∀ k, (s.CalculateAndSaveReceipt P T receipt id).2.hasKey k ↔ s.hasKey k ∨ k = id) ∧
    (∀ k, (s.GetReceipt k).2 = s) ∧
    s.GetAllReceipts.2 = s ∧
    (∀ k, s.GetAllReceipts.1 k = s.receipts k) := by
  refine ⟨?_, ?_, ?_, ?_, ?_, rfl, fun _ => rfl⟩
  · intro k entry h
    exact SaveReceipt_preserves s receipt points id hfresh k entry h
  · intro k
    exact SaveReceipt_hasKey s receipt points id k
  · intro k entry h
    exact SaveReceipt_preserves s receipt _ id hfresh k entry h
  · intro k
    exact SaveReceipt_hasKey s receipt _ id k
  · intro k
    unfold Store.GetReceipt
    cases s.receipts k <;> rfl

/-- C13 (witness): saving a second receipt under "id-2" in the store that holds the
example receipt under "id-1" keeps the entry of "id-1". -/
theorem store_append_only_witness :
    ((NewStore.SaveReceipt targetReceipt 12 "id-1").2.SaveReceipt hugePriceReceipt 7
        "id-2").2.receipts "id-1"
      = some { Receipt := targetReceipt, Points := 12 } :=
  (store_append_only amd64 latin1Tables
    (NewStore.SaveReceipt targetReceipt 12 "id-1").2 hugePriceReceipt 7 "id-2"
    (by simp [Store.hasKey, NewStore, Store.SaveReceipt])).1 "id-1" _
    (by simp [Store.SaveReceipt])

/-! ## The store on the heap: snapshots -/

theorem Heap.Allocated_NewStore : (emptyHeap.NewStore).2.Allocated (emptyHeap.NewStore).1 := by
  refine ⟨by decide, by simp [Heap.NewStore, Heap.makeMap, emptyHeap], ?_, ?_⟩
  · intro a ha
    have ha' : 1 ≤ a := ha
    have : a ≠ 0 := by omega
    simp [Heap.NewStore, Heap.makeMap, emptyHeap, this]
  · intro m obj k p hm hk
    simp only [Heap.NewStore, Heap.makeMap, emptyHeap] at hm
    by_cases h0 : m = 0
    · simp only [h0, if_true, Option.some.injEq] at hm
      rw [← hm] at hk
      cases hk
    · simp [h0] at hm

theorem Heap.Allocated_SaveReceipt (h : Heap) (s : StoreRef) (receipt : Receipt) (points : Int)
    (id : String) (hA : h.Allocated s) : (h.SaveReceipt s receipt points id).2.Allocated s := by
  obtain ⟨hlt, hsome, hfree, hptr⟩ := hA
  obtain ⟨obj, hobj⟩ := Option.isSome_iff_exists.mp hsome
  have hmaps : (h.SaveReceipt s receipt points id).2.maps
      = fun a => if a = s.receipts then
          some (fun key => if key = id then some h.next else obj key) else h.maps a := by
    simp [Heap.SaveReceipt, Heap.newRecord, Heap.mapAssign, hobj]
  have hrec : (h.SaveReceipt s receipt points id).2.records
      = fun a => if a = h.next then some { Receipt := receipt, Points := points }
          else h.records a := by
    simp [Heap.SaveReceipt, Heap.newRecord, Heap.mapAssign, hobj]
  have hnext : (h.SaveReceipt s receipt points id).2.next = h.next + 1 := by
    simp [Heap.SaveReceipt, Heap.newRecord, Heap.mapAssign, hobj]
  refine ⟨by omega, ?_, ?_, ?_⟩
  · simp [hmaps]
  · intro a ha
    rw [hnext] at ha
    have h1 : a ≠ s.receipts := by omega
    have h2 : a ≠ h.next := by omega
    have := hfree a (by omega)
    simp [hmaps, hrec, h1, h2, this]
  · intro m obj' k p hm hk
    rw [hnext]
    rw [hmaps] at hm
    by_cases hms : m = s.receipts
    · simp only [hms, if_true, Option.some.injEq] at hm
      rw [← hm] at hk
      by_cases hki : k = id
      · simp only [hki, if_true, Option.some.injEq] at hk
        omega
      · simp only [hki, if_false] at hk
        have := hptr s.receipts obj k p hobj hk
        omega
    · simp only [hms, if_false] at hm
      have := hptr m obj' k p hm hk
      omega

theorem Heap.GetAllReceipts_eq (h : Heap) (s : StoreRef) (obj : MapObject)
    (hobj : h.maps s.receipts = some obj) :
    h.GetAllReceipts s
      = (h.next, { maps := fun a => if a = h.next then some (fun key => obj key) else h.maps a,
                   records := h.records, next := h.next + 1 }) := by
  unfold Heap.GetAllReceipts Heap.makeMap
  simp only [hobj]
  congr 2
  funext a
  by_cases ha : a = h.next <;> simp [ha]

theorem Heap.deref_congr (h h' : Heap) (p : Option Nat) (hrec : h'.records = h.records) :
    h'.deref p = h.deref p := by
  cases p <;> simp [Heap.deref, hrec]

theorem Heap.GetReceipt_congr (h h' : Heap) (s : StoreRef) (key : String)
    (hl : h'.mapLookup s.receipts key = h.mapLookup s.receipts key) :
    (h'.GetReceipt s key).1 = (h.GetReceipt s key).1 := by
  unfold Heap.GetReceipt
  rw [hl]
  cases h.mapLookup s.receipts key <;> rfl

/-- C14: on a well-formed heap, `GetAllReceipts` returns a new map object that holds the
store's identifiers and stored receipts of the time of the call and leaves the store as it
was; a later `SaveReceipt` shows in the store and not in the returned map; assigning or
deleting an entry of the returned map shows in that map and changes neither the store's
map nor what `GetReceipt` returns. -/
theorem GetAllReceipts_snapshot (h : Heap) (s : StoreRef) (hA : h.Allocated s) :
    (h.GetAllReceipts s).1 ≠ s.receipts ∧
    (∀ k, (h.GetAllReceipts s).2.mapLookup (h.GetAllReceipts s).1 k
        = h.mapLookup s.receipts k ∧
      (h.GetAllReceipts s).2.contents (h.GetAllReceipts s).1 k = h.contents s.receipts k) ∧
    (∀ k, (h.GetAllReceipts s).2.mapLookup s.receipts k = h.mapLookup s.receipts k ∧
      (h.GetAllReceipts s).2.contents s.receipts k = h.contents s.receipts k) ∧
    (∀ receipt points id k,
      ((h.GetAllReceipts s).2.SaveReceipt s receipt points id).2.mapLookup
          (h.GetAllReceipts s).1 k
        = (h.GetAllReceipts s).2.mapLookup (h.GetAllReceipts s).1 k ∧
      ((h.GetAllReceipts s).2.SaveReceipt s receipt points id).2.contents
          (h.GetAllReceipts s).1 k
        = (h.GetAllReceipts s).2.contents (h.GetAllReceipts s).1 k) ∧
    (∀ receipt points id,
      ((h.GetAllReceipts s).2.SaveReceipt s receipt points id).2.contents s.receipts id
        = some { Receipt := receipt, Points := points }) ∧
    (∀ k p key,
      ((h.GetAllReceipts s).2.mapAssign (h.GetAllReceipts s).1 k p).mapLookup
          (h.GetAllReceipts s).1 k = some p ∧
      ((h.GetAllReceipts s).2.mapAssign (h.GetAllReceipts s).1 k p).contents s.receipts key
        = (h.GetAllReceipts s).2.contents s.receipts key ∧
      (((h.GetAllReceipts s).2.mapAssign (h.GetAllReceipts s).1 k p).GetReceipt s key).1
        = ((h.GetAllReceipts s).2.GetReceipt s key).1) ∧
    (∀ k key,
      ((h.GetAllReceipts s).2.mapDelete (h.GetAllReceipts s).1 k).mapLookup
          (h.GetAllReceipts s).1 k = none ∧
      ((h.GetAllReceipts s).2.mapDelete (h.GetAllReceipts s).1 k).contents s.receipts key
        = (h.GetAllReceipts s).2.contents s.receipts key ∧
      (((h.GetAllReceipts s).2.mapDelete (h.GetAllReceipts s).1 k).GetReceipt s key).1
        = ((h.GetAllReceipts s).2.GetReceipt s key).1) := by
  obtain ⟨hlt, hsome, hfree, hptr⟩ := hA
  obtain ⟨obj, hobj⟩ := Option.isSome_iff_exists.mp hsome
  have hne : s.receipts ≠ h.next := by omega
  have hne' : h.next ≠ s.receipts := by omega
  rw [Heap.GetAllReceipts_eq h s obj hobj]
  refine ⟨hne', ?_, ?_, ?_, ?_, ?_, ?_⟩
  · intro k
    simp only [Heap.mapLookup, Heap.contents, hobj, if_true]
    exact ⟨trivial, Heap.deref_congr _ _ _ rfl⟩
  · intro k
    simp only [Heap.mapLookup, Heap.contents, hobj, hne, if_false]
    exact ⟨trivial, Heap.deref_congr _ _ _ rfl⟩
  · intro receipt points id k
    have hp : ∀ p, obj k = some p → p ≠ h.next + 1 := by
      intro p hk
      have := hptr s.receipts obj k p hobj hk
      omega
    constructor
    · simp [Heap.SaveReceipt, Heap.newRecord, Heap.mapAssign, Heap.mapLookup, hobj, hne, hne']
    · simp only [Heap.SaveReceipt, Heap.newRecord, Heap.mapAssign, Heap.mapLookup,
        Heap.contents, hobj, hne, hne', if_false, if_true]
      cases hk : obj k with
      | none => simp [Heap.deref]
      | some p => simp [Heap.deref, hp p hk]
  · intro receipt points id
    simp [Heap.SaveReceipt, Heap.newRecord, Heap.mapAssign, Heap.mapLookup, Heap.contents,
      Heap.deref, hobj, hne]
  · intro k p key
    refine ⟨?_, ?_, ?_⟩
    · simp [Heap.mapAssign, Heap.mapLookup]
    · simp only [Heap.mapAssign, Heap.mapLookup, Heap.contents, hne, if_true, if_false]
      exact Heap.deref_congr _ _ _ rfl
    · apply Heap.GetReceipt_congr
      simp [Heap.mapAssign, Heap.mapLookup, hne]
  · intro k key
    refine ⟨?_, ?_, ?_⟩
    · simp [Heap.mapDelete, Heap.mapLookup]
    · simp only [Heap.mapDelete, Heap.mapLookup, Heap.contents, hne, if_true, if_false]
      exact Heap.deref_congr _ _ _ rfl
    · apply Heap.GetReceipt_congr
      simp [Heap.mapDelete, Heap.mapLookup, hne]

/-- C14 (witness): the snapshot taken of a store that holds the example receipt under
"id-1" is a map object of its own. -/
theorem GetAllReceipts_snapshot_witness :
    (((emptyHeap.NewStore).2.SaveReceipt (emptyHeap.NewStore).1 targetReceipt 12
        "id-1").2.GetAllReceipts (emptyHeap.NewStore).1).1 ≠ (emptyHeap.NewStore).1.receipts :=
  (GetAllReceipts_snapshot
    ((emptyHeap.NewStore).2.SaveReceipt (emptyHeap.NewStore).1 targetReceipt 12 "id-1").2
    (emptyHeap.NewStore).1
    (Heap.Allocated_SaveReceipt _ _ _ _ _ Heap.Allocated_NewStore)).1

/-- The heap operations refine the operations on the store's contents: after
`SaveReceipt` on a well-formed heap the contents of the store's map are those `SaveReceipt`
gives on the contents before. -/
theorem Heap.SaveReceipt_contents (h : Heap) (s : StoreRef) (receipt : Receipt) (points : Int)
    (id : String) (hA : h.Allocated s) (k : String) :
    (h.SaveReceipt s receipt points id).2.contents s.receipts k
      = ((Store.mk (h.contents s.receipts)).SaveReceipt receipt points id).2.receipts k := by
  obtain ⟨hlt, hsome, hfree, hptr⟩ := hA
  obtain ⟨obj, hobj⟩ := Option.isSome_iff_exists.mp hsome
  rw [SaveReceipt_receipts]
  simp only [Heap.SaveReceipt, Heap.newRecord, Heap.mapAssign, Heap.mapLookup, Heap.contents,
    hobj, if_true]
  by_cases hk : k = id
  · simp [hk, Heap.deref]
  · simp only [hk, if_false]
    cases hp : obj k with
    | none => rfl
    | some p =>
      have : p ≠ h.next := by
        have := hptr s.receipts obj k p hobj hp
        omega
      simp [Heap.deref, this]

/-! ## The handlers -/

theorem TrimPrefix_append (p rest : String) : TrimPrefix (p ++ rest) p = rest := by
  unfold TrimPrefix HasPrefix
  simp [String.toList, List.isPrefixOf_iff_prefix]

theorem TrimSuffix_append (id p : String) : TrimSuffix (id ++ p) p = id := by
  unfold TrimSuffix HasSuffix
  simp [String.toList, List.isSuffixOf_iff_suffix]

theorem TrimSuffix_of_not_HasSuffix (s p : String) (h : HasSuffix s p = false) :
    TrimSuffix s p = s := by
  unfold TrimSuffix
  simp [h]

theorem HasSuffix_eq_append (s p : String) (h : HasSuffix s p = true) :
    s = TrimSuffix s p ++ p := by
  unfold HasSuffix at h
  rw [List.isSuffixOf_iff_suffix] at h
  obtain ⟨t, ht⟩ := h
  have hs : s = String.mk t ++ p := by
    apply String.ext
    simp [String.toList] at ht ⊢
    exact ht.symm
  rw [hs, TrimSuffix_append]

theorem append_ne_self (id p : String) (hp : p ≠ "") : id ≠ id ++ p := by
  intro h
  apply hp
  have hl := congrArg String.length h
  simp [String.length_append] at hl
  apply String.ext
  have : p.data.length = 0 := hl
  simpa using List.length_eq_zero.mp this

theorem sendError_status (ok : Bool) (body : ResponseBody) (status : Nat) :
    (sendError (newResponseWriter ok) body status).status = some status := by
  cases ok <;> rfl

theorem GetPoints_bad_id (ok : Bool) (s : Store) (r : Request) (hm : r.Method = "GET")
    (hid : TrimSuffix (TrimPrefix r.Path "/receipts/") "/points" = "" ∨
      TrimSuffix (TrimPrefix r.Path "/receipts/") "/points" = TrimPrefix r.Path "/receipts/") :
    (GetPoints s (newResponseWriter ok) r).1.status = some 400 := by
  unfold GetPoints
  simp only [hm, ne_eq, not_true_eq_false, if_false, hid, if_true, sendErrorResponse]
  exact sendError_status ok _ 400

theorem GetPoints_lookup (ok : Bool) (s : Store) (r : Request) (id : String)
    (hm : r.Method = "GET") (hp : r.Path = "/receipts/" ++ id ++ "/points") (hid : id ≠ "") :
    (¬ s.hasKey id → (GetPoints s (newResponseWriter ok) r).1.status = some 404) ∧
    (∀ entry, s.receipts id = some entry →
      (GetPoints s (newResponseWriter ok) r).1.status = some 200 ∧
      (ok = true → (GetPoints s (newResponseWriter ok) r).1.body = [.points entry.Points])) := by
  have h1 : TrimPrefix r.Path "/receipts/" = id ++ "/points" := by
    rw [hp, String.append_assoc, TrimPrefix_append]
  have h2 : TrimSuffix (id ++ "/points") "/points" = id := TrimSuffix_append id "/points"
  have h3 : id ≠ id ++ "/points" := append_ne_self id "/points" (by decide)
  constructor
  · intro hk
    have hnone : s.receipts id = none := by
      unfold Store.hasKey at hk
      cases hr : s.receipts id with
      | none => rfl
      | some v => simp [hr] at hk
    unfold GetPoints
    simp only [hm, ne_eq, not_true_eq_false, if_false, h1, h2, hid, h3, or_self,
      Store.GetReceipt, hnone, sendErrorResponse]
    exact sendError_status ok _ 404
  · intro entry he
    unfold GetPoints
    simp only [hm, ne_eq, not_true_eq_false, if_false, h1, h2, hid, h3, or_self,
      Store.GetReceipt, he]
    cases ok
    · exact ⟨rfl, fun h => absurd h (by decide)⟩
    · exact ⟨rfl, fun _ => rfl⟩

/-- C15: `GetPoints` answers a request whose method is not GET with 405; a GET whose path
under "/receipts/" is not an identifier that is not empty followed by "/points" (as
"/receipts//points" and "/receipts/points") with 400; a GET for "/receipts/" ++ id ++
"/points" with `id` not empty with 404 if `id` is not a key of the store and with 200 and
the stored points of `id` if it is.  The store is left as it was. -/
theorem GetPoints_status (ok : Bool) (s : Store) (r : Request) :
    (r.Method ≠ "GET" → (GetPoints s (newResponseWriter ok) r).1.status = some 405) ∧
    (r.Method = "GET" → ∀ rest, r.Path = "/receipts/" ++ rest →
      (¬ ∃ id, id ≠ "" ∧ rest = id ++ "/points") →
      (GetPoints s (newResponseWriter ok) r).1.status = some 400) ∧
    (r.Method = "GET" → ∀ id, id ≠ "" → r.Path = "/receipts/" ++ id ++ "/points" →
      (¬ s.hasKey id → (GetPoints s (newResponseWriter ok) r).1.status = some 404) ∧
      (∀ entry, s.receipts id = some entry →
        (GetPoints s (newResponseWriter ok) r).1.status = some 200 ∧
        (ok = true →
          (GetPoints s (newResponseWriter ok) r).1.body = [.points entry.Points]))) ∧
    (GetPoints s (newResponseWriter ok) r).2 = s ∧
    (GetPoints s (newResponseWriter ok) ⟨"GET", "/receipts//points", "", ""⟩).1.status
      = some 400 ∧
    (GetPoints s (newResponseWriter ok) ⟨"GET", "/receipts/points", "", ""⟩).1.status
      = some 400 := by
  refine ⟨?_, ?_, ?_, ?_, ?_, ?_⟩
  · intro hm
    unfold GetPoints
    simp only [hm, ne_eq, not_false_eq_true, if_true, sendErrorResponse]
    exact sendError_status ok _ 405
  · intro hm rest hp hno
    apply GetPoints_bad_id ok s r hm
    rw [hp, TrimPrefix_append]
    cases hs : HasSuffix rest "/points" with
    | false => exact Or.inr (TrimSuffix_of_not_HasSuffix rest "/points" hs)
    | true =>
      left
      by_contra hne
      exact hno ⟨TrimSuffix rest "/points", hne, HasSuffix_eq_append rest "/points" hs⟩
  · intro hm id hid hp
    exact GetPoints_lookup ok s r id hm hp hid
  · unfold GetPoints
    by_cases hm : r.Method = "GET"
    · simp only [hm, ne_eq, not_true_eq_false, if_false]
      split
      · rfl
      · simp only [Store.GetReceipt]
        cases s.receipts (TrimSuffix (TrimPrefix r.Path "/receipts/") "/points") with
        | none => rfl
        | some v =>
          simp only
          split <;> rfl
    · simp [hm]
  · exact GetPoints_bad_id ok s _ rfl (Or.inl (by decide))
  · exact GetPoints_bad_id ok s _ rfl (Or.inr (by decide))

/-- The five ways `ProcessReceipt` ends, with the status sent and the store left. -/
theorem ProcessReceipt_cases (C : Codec) (P : Platform) (T : UnicodeTables) (s : Store)
    (ok : Bool) (r : Request) (id : String) :
    (r.Method ≠ "POST" ∧
      (ProcessReceipt C P T s (newResponseWriter ok) r id).1.status = some 405 ∧
      (ProcessReceipt C P T s (newResponseWriter ok) r id).2 = s) ∨
    (r.Method = "POST" ∧ Contains r.ContentType "application/json" = false ∧
      (ProcessReceipt C P T s (newResponseWriter ok) r id).1.status = some 415 ∧
      (ProcessReceipt C P T s (newResponseWriter ok) r id).2 = s) ∨
    (r.Method = "POST" ∧ Contains r.ContentType "application/json" = true ∧
      (∃ e, UnmarshalJSON C r.Body = .error e) ∧
      (ProcessReceipt C P T s (newResponseWriter ok) r id).1.status = some 400 ∧
      (ProcessReceipt C P T s (newResponseWriter ok) r id).2 = s) ∨
    (r.Method = "POST" ∧ Contains r.ContentType "application/json" = true ∧
      (∃ receipt e, UnmarshalJSON C r.Body = .ok receipt ∧ validateReceipt receipt = some e) ∧
      (ProcessReceipt C P T s (newResponseWriter ok) r id).1.status = some 400 ∧
      (ProcessReceipt C P T s (newResponseWriter ok) r id).2 = s) ∨
    (r.Method = "POST" ∧ Contains r.ContentType "application/json" = true ∧
      ∃ receipt, UnmarshalJSON C r.Body = .ok receipt ∧ validateReceipt receipt = none ∧
        (ProcessReceipt C P T s (newResponseWriter ok) r id).1.status = some 201 ∧
        (ProcessReceipt C P T s (newResponseWriter ok) r id).2
          = (s.CalculateAndSaveReceipt P T receipt id).2 ∧
        (ok = true → (ProcessReceipt C P T s (newResponseWriter ok) r id).1.body
          = [.created id (CalculatePoints P T receipt)])) := by
  by_cases hm : r.Method = "POST"
  · right
    cases hc : Contains r.ContentType "application/json" with
    | false =>
      left
      refine ⟨hm, rfl, ?_, ?_⟩
      · unfold ProcessReceipt
        simp only [hm, ne_eq, not_true_eq_false, if_false, hc, Bool.not_false, if_true,
          sendErrorResponse]
        exact sendError_status ok _ 415
      · unfold ProcessReceipt
        simp [hm, hc]
    | true =>
      right
      cases hu : UnmarshalJSON C r.Body with
      | error e =>
        left
        refine ⟨hm, rfl, ⟨e, rfl⟩, ?_, ?_⟩
        · unfold ProcessReceipt
          simp only [hm, ne_eq, not_true_eq_false, if_false, hc, Bool.not_true,
            Bool.false_eq_true, hu, sendErrorResponse]
          exact sendError_status ok _ 400
        · unfold ProcessReceipt
          simp [hm, hc, hu]
      | ok receipt =>
        right
        cases hv : validateReceipt receipt with
        | some e =>
          left
          refine ⟨hm, rfl, ⟨receipt, e, rfl, hv⟩, ?_, ?_⟩
          · unfold ProcessReceipt
            simp only [hm, ne_eq, not_true_eq_false, if_false, hc, Bool.not_true,
              Bool.false_eq_true, hu, hv]
            exact sendError_status ok _ 400
          · unfold ProcessReceipt
            simp [hm, hc, hu, hv]
        | none =>
          right
          refine ⟨hm, rfl, receipt, rfl, hv, ?_, ?_, ?_⟩
          · unfold ProcessReceipt
            simp only [hm, ne_eq, not_true_eq_false, if_false, hc, Bool.not_true,
              Bool.false_eq_true, hu, hv]
            cases ok <;> rfl
          · unfold ProcessReceipt
            simp only [hm, ne_eq, not_true_eq_false, if_false, hc, Bool.not_true,
              Bool.false_eq_true, hu, hv]
            cases ok <;> rfl
          · intro hok
            unfold ProcessReceipt
            simp only [hm, ne_eq, not_true_eq_false, if_false, hc, Bool.not_true,
              Bool.false_eq_true, hu, hv, hok]
            rfl
  · left
    refine ⟨hm, ?_, ?_⟩
    · unfold ProcessReceipt
      simp only [hm, ne_eq, not_false_eq_true, if_true, sendErrorResponse]
      exact sendError_status ok _ 405
    · unfold ProcessReceipt
      simp [hm]

/-- C16 (counterexample): the Content-Type "application/json-seq" is not application/json
(it is another media type), and a POST that carries it is never answered with 415. -/
theorem ProcessReceipt_json_seq_not_415 :
    "application/json-seq" ≠ "application/json" ∧
    Contains "application/json-seq" "application/json" = true ∧
    ∀ (C : Codec) (P : Platform) (T : UnicodeTables) (s : Store) (ok : Bool)
      (body id : String),
      (ProcessReceipt C P T s (newResponseWriter ok)
        ⟨"POST", "/receipts/process", "application/json-seq", body⟩ id).1.status ≠ some 415 := by
  refine ⟨by decide, by decide, ?_⟩
  intro C P T s ok body id
  have hc : Contains "application/json-seq" "application/json" = true := by decide
  rcases ProcessReceipt_cases C P T s ok
      ⟨"POST", "/receipts/process", "application/json-seq", body⟩ id with
    h | h | h | h | h
  · exact absurd rfl h.1
  · rw [hc] at h
    exact absurd h.2.1 (by decide)
  · rw [h.2.2.2.1]
    decide
  · rw [h.2.2.2.1]
    decide
  · obtain ⟨_, _, receipt, _, _, hst, _⟩ := h
    rw [hst]
    decide

/-- C16 (amended): a POST request is answered with 415 if and only if its Content-Type
header does not contain "application/json"; in particular never when the Content-Type is
application/json.  A request whose method is not POST is answered with 405 whatever the
Content-Type. -/
theorem ProcessReceipt_content_type (C : Codec) (P : Platform) (T : UnicodeTables)
    (s : Store) (ok : Bool) (r : Request) (id : String) :
    (r.Method = "POST" →
      ((ProcessReceipt C P T s (newResponseWriter ok) r id).1.status = some 415 ↔
        Contains r.ContentType "application/json" = false)) ∧
    (r.Method = "POST" → r.ContentType = "application/json" →
      (ProcessReceipt C P T s (newResponseWriter ok) r id).1.status ≠ some 415) ∧
    (r.Method ≠ "POST" →
      (ProcessReceipt C P T s (newResponseWriter ok) r id).1.status = some 405) := by
  have hiff : r.Method = "POST" →
      ((ProcessReceipt C P T s (newResponseWriter ok) r id).1.status = some 415 ↔
        Contains r.ContentType "application/json" = false) := by
    intro hm
    rcases ProcessReceipt_cases C P T s ok r id with h | h | h | h | h
    · exact absurd hm h.1
    · exact ⟨fun _ => h.2.1, fun _ => h.2.2.1⟩
    · rw [h.2.2.2.1, h.2.1]
      simp
    · rw [h.2.2.2.1, h.2.1]
      simp
    · obtain ⟨_, hc, receipt, _, _, hst, _⟩ := h
      rw [hst, hc]
      simp
  refine ⟨hiff, ?_, ?_⟩
  · intro hm hct h415
    have := (hiff hm).mp h415
    rw [hct] at this
    exact absurd this (by decide)
  · intro hm
    rcases ProcessReceipt_cases C P T s ok r id with h | h | h | h | h
    · exact h.2.1
    · exact absurd h.1 hm
    · exact absurd h.1 hm
    · exact absurd h.1 hm
    · exact absurd h.1 hm

/-! ## Order of the contributions -/

theorem wrap64_of_inInt64 (i : Int) (h : inInt64 i) : wrap64 i = i := by
  unfold inInt64 minInt64 maxInt64 at h
  unfold wrap64
  omega

theorem addInt_right_comm (z a b : Int) : addInt (addInt z a) b = addInt (addInt z b) a := by
  unfold addInt wrap64
  omega

theorem itemStep_right_comm (P : Platform) (z : Int) (x y : Item) :
    itemStep P (itemStep P z x) y = itemStep P (itemStep P z y) x := by
  unfold itemStep
  by_cases hx : len (TrimSpace x.ShortDescription) % 3 = 0 <;>
    by_cases hy : len (TrimSpace y.ShortDescription) % 3 = 0 <;>
    simp only [hx, hy, if_true, if_false]
  exact addInt_right_comm z _ _

theorem calculateItemPoints_perm (P : Platform) (items items' : List Item)
    (h : List.Perm items items') :
    calculateItemPoints P items' = calculateItemPoints P items := by
  unfold calculateItemPoints
  rw [h.length_eq]
  exact (List.Perm.foldl_eq' h (fun x _ y _ z => itemStep_right_comm P z x y) _).symm

theorem CalculatePoints_eq_wrap64 (P : Platform) (T : UnicodeTables) (r : Receipt) :
    CalculatePoints P T r = wrap64 (contributionsSum P T r) := by
  unfold CalculatePoints contributionsSum
  generalize calculateRetailerNamePoints T r.Retailer = a
  generalize calculateTotalPoints P r.ParsedTotal = b
  generalize calculateItemPoints P r.Items = c
  generalize calculateDatePoints r.ParsedDate = d
  generalize calculateTimePoints r.ParsedDate = e
  unfold addInt wrap64
  dsimp only
  omega

theorem calculateItemPoints_maxItems (P : Platform) :
    calculateItemPoints P maxItemsReceipt.Items = 9223372036854775807 := by
  have hq : len (TrimSpace "abc") % 3 = 0 := by decide
  have hc1 : (((F64.ofDecimal false 46116860184273870848 1).mul
      (F64.ofDecimal false 2 10)).ceil).trunc = some 9223372036854774784 := by decide!
  have hb1 : priceBonus P ⟨"abc", "46116860184273870848",
      F64.ofDecimal false 46116860184273870848 1⟩ = 9223372036854774784 :=
    toInt_of_trunc P _ _ hc1 (by unfold inInt64 minInt64 maxInt64; omega)
  have hc2 : (((F64.ofDecimal false 5090 1).mul (F64.ofDecimal false 2 10)).ceil).trunc
      = some 1018 := by decide!
  have hb2 : priceBonus P ⟨"abc", "5090", F64.ofDecimal false 5090 1⟩ = 1018 :=
    toInt_of_trunc P _ _ hc2 (by unfold inInt64 minInt64 maxInt64; omega)
  unfold calculateItemPoints maxItemsReceipt
  simp only [List.foldl_cons, List.foldl_nil, itemStep, hq, if_true, hb1, hb2]
  decide!

/-- C17 (code at the failing input, and what holds): for every receipt, `CalculatePoints`
is the same for every permutation of the items, and it is the sum of the five contributions
reduced to the range of `int`: equal to the sum whenever the sum is in that range.  For
the accepted receipt whose items score `2^63 - 1` the sum of the contributions exceeds the
largest `int` and `CalculatePoints` returns a negative number, not the sum. -/
theorem CalculatePoints_order (P : Platform) (T : UnicodeTables) (r : Receipt) :
    (∀ items', List.Perm r.Items items' →
      CalculatePoints P T { r with Items := items' } = CalculatePoints P T r) ∧
    CalculatePoints P T r = wrap64 (contributionsSum P T r) ∧
    (inInt64 (contributionsSum P T r) → CalculatePoints P T r = contributionsSum P T r) ∧
    validateReceipt maxItemsReceipt = none ∧
    maxInt64 < contributionsSum P T maxItemsReceipt ∧
    CalculatePoints P T maxItemsReceipt < 0 := by
  have hname : calculateRetailerNamePoints T maxItemsReceipt.Retailer = 1 := rfl
  have htot := calculateTotalPoints_bounds P maxItemsReceipt.ParsedTotal
  have hd : calculateDatePoints maxItemsReceipt.ParsedDate = 6 := by decide
  have ht : calculateTimePoints maxItemsReceipt.ParsedDate = 0 := by decide
  have hsum : contributionsSum P T maxItemsReceipt
      = 9223372036854775814 + calculateTotalPoints P maxItemsReceipt.ParsedTotal := by
    unfold contributionsSum
    rw [hname, calculateItemPoints_maxItems P, hd, ht]
    ring
  refine ⟨?_, CalculatePoints_eq_wrap64 P T r, ?_, by decide!, ?_, ?_⟩
  · intro items' hperm
    unfold CalculatePoints
    simp only [calculateItemPoints_perm P r.Items items' hperm]
  · intro hin
    rw [CalculatePoints_eq_wrap64, wrap64_of_inInt64 _ hin]
  · rw [hsum]
    unfold maxInt64
    omega
  · rw [CalculatePoints_eq_wrap64, hsum]
    unfold wrap64
    omega

/-! ## Total points: the two bonuses -/

/-- C18 (code at the failing input, and what holds): `calculateTotalPoints` returns 0, 25,
50 or 75.  For the total 4503599627370497 (`2^52 + 1`, a whole number, so a multiple of
0.25) it returns exactly 50 on every platform: the product by 100 is rounded to
450359962737049728, which is not a multiple of 25. -/
theorem calculateTotalPoints_fifty (P : Platform) :
    (∀ total : F64, calculateTotalPoints P total = 0 ∨ calculateTotalPoints P total = 25 ∨
      calculateTotalPoints P total = 50 ∨ calculateTotalPoints P total = 75) ∧
    (F64.ofDecimal false 4503599627370497 1).trunc = some 4503599627370497 ∧
    (F64.ofDecimal false 4503599627370497 1).mul (F64.ofInt 100)
      = F64.ofDecimal false 450359962737049728 1 ∧
    calculateTotalPoints P (F64.ofDecimal false 4503599627370497 1) = 50 := by
  refine ⟨?_, by decide!, by decide!, ?_⟩
  · intro total
    unfold calculateTotalPoints
    by_cases h1 : total.eq (F64.ofInt (total.toInt P)) = true <;>
      by_cases h2 : ((total.mul (F64.ofInt 100)).mod (F64.ofInt 25)).eq (F64.ofInt 0) = true <;>
      simp only [h1, h2, if_true, if_false, Bool.false_eq_true] <;> decide
  · rw [calculateTotalPoints_of_trunc P _ 4503599627370497 (by decide!)
      (by unfold inInt64 minInt64 maxInt64; omega)]
    decide!

/-! ## `ProcessReceipt` and the store -/

theorem receiptsHandler_route (C : Codec) (P : Platform) (T : UnicodeTables) (s : Store)
    (w : ResponseWriter) (r : Request) (id : String) :
    (r.Path = "/receipts/process" →
      receiptsHandler C P T s w r id = ProcessReceipt C P T s w r id) ∧
    (HasSuffix r.Path "/points" = true → receiptsHandler C P T s w r id = GetPoints s w r) := by
  constructor
  · intro h
    simp [receiptsHandler, h]
  · intro h
    have hne : r.Path ≠ "/receipts/process" := by
      intro hp
      rw [hp] at h
      exact absurd h (by decide)
    simp [receiptsHandler, h, hne]

/-- C19: `ProcessReceipt` answers with 400, 405, 415 or 201.  With 400, 405 or 415 the
store is what it was before the request.  With 201, the identifier drawn not yet being a
key, the body decoded to a receipt that `validateReceipt` accepts, the store keeps every
entry it had and has exactly one more key, the identifier, which holds the submitted
receipt with the points sent in the response. -/
theorem ProcessReceipt_store (C : Codec) (P : Platform) (T : UnicodeTables) (s : Store)
    (ok : Bool) (r : Request) (id : String) (hfresh : ¬ s.hasKey id) :
    ((ProcessReceipt C P T s (newResponseWriter ok) r id).1.status = some 400 ∨
      (ProcessReceipt C P T s (newResponseWriter ok) r id).1.status = some 405 ∨
      (ProcessReceipt C P T s (newResponseWriter ok) r id).1.status = some 415 ∨
      (ProcessReceipt C P T s (newResponseWriter ok) r id).1.status = some 201) ∧
    ((ProcessReceipt C P T s (newResponseWriter ok) r id).1.status = some 400 ∨
      (ProcessReceipt C P T s (newResponseWriter ok) r id).1.status = some 405 ∨
      (ProcessReceipt C P T s (newResponseWriter ok) r id).1.status = some 415 →
      (ProcessReceipt C P T s (newResponseWriter ok) r id).2 = s) ∧
    ((ProcessReceipt C P T s (newResponseWriter ok) r id).1.status = some 201 →
      ∃ receipt, UnmarshalJSON C r.Body = .ok receipt ∧ validateReceipt receipt = none ∧
        (∀ k entry, s.receipts k = some entry →
          (ProcessReceipt C P T s (newResponseWriter ok) r id).2.receipts k = some entry) ∧
        (∀ k, (ProcessReceipt C P T s (newResponseWriter ok) r id).2.hasKey k ↔
          s.hasKey k ∨ k = id) ∧
        (ProcessReceipt C P T s (newResponseWriter ok) r id).2.receipts id
          = some { Receipt := receipt, Points := CalculatePoints P T receipt } ∧
        (ok = true → (ProcessReceipt C P T s (newResponseWriter ok) r id).1.body
          = [.created id (CalculatePoints P T receipt)])) := by
  rcases ProcessReceipt_cases C P T s ok r id with h | h | h | h | h
  · refine ⟨Or.inr (Or.inl h.2.1), fun _ => h.2.2, ?_⟩
    intro h201
    rw [h.2.1] at h201
    exact absurd h201 (by decide)
  · refine ⟨Or.inr (Or.inr (Or.inl h.2.2.1)), fun _ => h.2.2.2, ?_⟩
    intro h201
    rw [h.2.2.1] at h201
    exact absurd h201 (by decide)
  · refine ⟨Or.inl h.2.2.2.1, fun _ => h.2.2.2.2, ?_⟩
    intro h201
    rw [h.2.2.2.1] at h201
    exact absurd h201 (by decide)
  · refine ⟨Or.inl h.2.2.2.1, fun _ => h.2.2.2.2, ?_⟩
    intro h201
    rw [h.2.2.2.1] at h201
    exact absurd h201 (by decide)
  · obtain ⟨_, _, receipt, hu, hv, hst, hstore, hbody⟩ := h
    refine ⟨Or.inr (Or.inr (Or.inr hst)), ?_, ?_⟩
    · intro hbad
      rw [hst] at hbad
      rcases hbad with hb | hb | hb <;> exact absurd hb (by decide)
    · intro _
      refine ⟨receipt, hu, hv, ?_, ?_, ?_, hbody⟩
      · intro k entry hk
        rw [hstore]
        exact SaveReceipt_preserves s receipt _ id hfresh k entry hk
      · intro k
        rw [hstore]
        exact SaveReceipt_hasKey s receipt _ id k
      · rw [hstore]
        simp [Store.CalculateAndSaveReceipt, Store.SaveReceipt]

/-- C19 (witness): the POST of the example receipt to a new store, with "id-1" drawn, is
answered with 201 and leaves "id-1" as the only key, holding the receipt with 12 points. -/
theorem ProcessReceipt_store_witness :
    (ProcessReceipt sampleCodec amd64 latin1Tables NewStore (newResponseWriter true)
        targetRequest "id-1").1.status = some 201 ∧
    (ProcessReceipt sampleCodec amd64 latin1Tables NewStore (newResponseWriter true)
        targetRequest "id-1").1.body = [.created "id-1" 12] ∧
    ((ProcessReceipt sampleCodec amd64 latin1Tables NewStore (newResponseWriter true)
        targetRequest "id-1").2.hasKey "id-1" ↔ NewStore.hasKey "id-1" ∨ "id-1" = "id-1") ∧
    ((ProcessReceipt sampleCodec amd64 latin1Tables NewStore (newResponseWriter true)
        targetRequest "id-1").2.hasKey "id-2" ↔ NewStore.hasKey "id-2" ∨ "id-2" = "id-1") := by
  have hst : (ProcessReceipt sampleCodec amd64 latin1Tables NewStore (newResponseWriter true)
      targetRequest "id-1").1.status = some 201 := by decide!
  have hbody : (ProcessReceipt sampleCodec amd64 latin1Tables NewStore (newResponseWriter true)
      targetRequest "id-1").1.body = [.created "id-1" 12] := by decide!
  obtain ⟨_, _, _, _, hkeys, _, _⟩ :=
    (ProcessReceipt_store sampleCodec amd64 latin1Tables NewStore true targetRequest "id-1"
      (by simp [Store.hasKey, NewStore])).2.2 hst
  exact ⟨hst, hbody, hkeys "id-1", hkeys "id-2"⟩

end Fetch
